import Mathlib

/-!
Shallow embedding of the bulk flashcard import pipeline of the
LanguageLearningHub repository, together with proofs about it.

The embedded code comes from:
* `server/routes.ts` — the bulk-upload handler (lines 110-208), its
  `processImage` helper (lines 211-226) and the bulk-import handler;
* the second routes variant stored in the repository (part_014, lines
  342-554 and 691-841) — the bulk-upload handler with per-pair
  used-image tracking, the retrying `processImage` with output
  verification, the `handleFileUpload` preprocessing step, and the
  lesson-creating bulk-import handler with `splice` insertion;
* `server/storage.ts` — the local-disk `uploadFile` (lines 31-51) and the
  object-storage `uploadFile` (lines 93-105).

Modelling conventions:
* The local filesystem and the blob stores are functional maps from keys
  to optional blobs; `fs.unlinkSync`, `copyFile` and object `put` become
  functional updates.
* `Promise.all` over the pairs of one batch is modelled sequentially in
  input order (the simplest linearisation of the handler); per-pair
  template strings `images/${uuidv4()}${ext}` are modelled as structured
  keys `Ref.img n ext` where `n` is a fresh counter — uuidv4 values are
  fresh per call, so distinct counters model distinct keys.
* `Math.random()`-derived choices (the comparator shuffle and
  `Math.floor(Math.random() * 4)`) are supplied by an explicit oracle.
* Transient image-library failures and corrupt resize outputs are
  supplied by clock-indexed oracles consumed one tick per attempt.
-/

namespace LLH

/-- Functional finite map used for the local filesystem and blob stores. -/
def Map (κ α : Type) : Type := κ → Option α

/-- Point update of a functional map (write / overwrite a key). -/
def Map.update [DecidableEq κ] (m : Map κ α) (k : κ) (a : α) : Map κ α :=
  fun q => if q = k then some a else m q

/-- Point removal from a functional map (unlink / delete a key). -/
def Map.erase [DecidableEq κ] (m : Map κ α) (k : κ) : Map κ α :=
  fun q => if q = k then none else m q

/-- Stored bytes.  `file` is an original uploaded file: `srcId` identifies
the uploaded source bytes, `width`/`height` are the image dimensions that
`sharp.metadata()` reports (absent for files without parseable
dimensions), and `dec` says whether the bytes decode as an image at all
(false for audio bytes and corrupt images, making `metadata()` throw).
`contain` is the output of `sharp.resize(w, h, { fit: contain,
background: {r,g,b,alpha} })`: the source scaled to fit while preserving
aspect ratio, padded to the w×h canvas with the background fill; its
`dec` flag records whether the produced output is itself decodable. -/
inductive Blob : Type where
  | file (srcId : Nat) (width height : Option Nat) (dec : Bool)
  | contain (src : Blob) (w h : Nat) (bgR bgG bgB bgA : Nat) (dec : Bool)
deriving DecidableEq, Repr

/-- Identity of the original uploaded bytes a blob derives from. -/
def Blob.srcId : Blob → Nat
  | .file i _ _ _ => i
  | .contain s _ _ _ _ _ _ _ => s.srcId

/-- Whether `sharp(path).metadata()` succeeds on these bytes. -/
def Blob.isDec : Blob → Bool
  | .file _ _ _ d => d
  | .contain _ _ _ _ _ _ _ d => d

/-- The `width`/`height` fields of the metadata `sharp` reports. -/
def Blob.dims : Blob → Option Nat × Option Nat
  | .file _ w h _ => (w, h)
  | .contain _ w h _ _ _ _ _ => (some w, some h)

/-- One uploaded multipart file as multer presents it to the handler. -/
structure UFile where
  originalname : String
  mimetype : String
  path : String
deriving DecidableEq, Repr

/-- A stable storage key / returned reference.  The handlers build keys by
string interpolation (`images/${uuidv4()}${ext}`,
`lessons/${lessonId}/images/${basename}`); the interpolation is modelled
structurally, with the fresh uuid modelled by the counter `n`. -/
inductive Ref : Type where
  | img (n : Nat) (ext : String)
  | audio (n : Nat) (ext : String)
  | lessonAudio (lesson : Nat) (name : String)
  | lessonImg (lesson : Nat) (name : String)
deriving DecidableEq, Repr

/-- A persisted flashcard row (`db.insert(flashcards).values({...})`).
`imageChoices` entries are `Option Ref` because the JavaScript swap that
places the correct answer can materialise `undefined` holes when the
choice list is shorter than the random index (routes.ts has no length
guard). -/
structure Flashcard where
  lessonId : Nat
  audioUrl : Ref
  imageChoices : List (Option Ref)
  correctImageIndex : Nat
deriving DecidableEq, Repr

/-- Per-item outcome in the batch report, mirroring the
`{success, flashcard?, audioName, error?}` objects the handlers build. -/
inductive ItemResult : Type where
  | ok (audioName : String) (flashcard : Flashcard)
  | fail (audioName : String) (error : String)
deriving DecidableEq, Repr

/-- Whether an item result is a success entry. -/
def ItemResult.isOk : ItemResult → Bool
  | .ok _ _ => true
  | .fail _ _ => false

/-- The aggregate JSON body of the bulk-upload response. -/
structure Report where
  total : Nat
  successful : Nat
  failed : Nat
  results : List ItemResult
deriving DecidableEq, Repr

/-- The bulk-upload HTTP response: a 400 with a single error message, or
the 200 aggregate report. -/
inductive Resp : Type where
  | badRequest (msg : String)
  | ok (report : Report)
deriving DecidableEq, Repr

/-- Characters after the last slash (directory part removal,
as in `path.basename`). -/
def afterLastSlash (l : List Char) : List Char :=
  l.foldl (fun acc c => if c = '/' then [] else acc ++ [c]) []

/-- Index of the last dot of a (slash-free) file name, if any. -/
def lastDotIdx (l : List Char) : Option Nat :=
  (l.enum.filterMap (fun p => if p.2 = '.' then some p.1 else none)).getLast?

/-- Model of `path.extname`: the suffix from the last dot of the base
name, empty when there is no dot or the only dot starts the name. -/
def extnameOf (s : String) : String :=
  let base := afterLastSlash s.data
  match lastDotIdx base with
  | none => ""
  | some 0 => ""
  | some i => ⟨base.drop i⟩

/-- Model of `path.basename(name)` (strip the directory part). -/
def basenameFull (s : String) : String := ⟨afterLastSlash s.data⟩

/-- Model of `path.basename(name, path.extname(name))`: the file name
without its extension — the pairing key between audio and images. -/
def baseNameOf (s : String) : String :=
  let base := afterLastSlash s.data
  match lastDotIdx base with
  | none => ⟨base⟩
  | some 0 => ⟨base⟩
  | some i => ⟨base.take i⟩

/-- Value of a hex digit character. -/
def hexDigit (c : Char) : Option Nat :=
  if '0' ≤ c ∧ c ≤ '9' then some (c.toNat - '0'.toNat)
  else if 'a' ≤ c ∧ c ≤ 'f' then some (c.toNat - 'a'.toNat + 10)
  else if 'A' ≤ c ∧ c ≤ 'F' then some (c.toNat - 'A'.toNat + 10)
  else none

/-- Percent-escape decoding over characters.  Well-formed `%XX` escapes
decode to the byte value; a malformed escape is left as is (the real
`decodeURIComponent` would throw a URIError there; no batch in this
development exercises that path) and multi-byte UTF-8 sequences are
decoded bytewise. -/
def percentDecode : List Char → List Char
  | [] => []
  | '%' :: a :: b :: rest =>
    match hexDigit a, hexDigit b with
    | some x, some y => Char.ofNat (16 * x + y) :: percentDecode rest
    | _, _ => '%' :: percentDecode (a :: b :: rest)
  | c :: rest => c :: percentDecode rest

/-- The `decodeFileName` helper of the part_014 bulk-upload handler
(`decodeURIComponent`). -/
def decodeFileName (s : String) : String := ⟨percentDecode s.data⟩

/-- Model of `String.startsWith`, by character-list comparison (the MIME
prefix checks of the handlers). -/
def strStartsWith (s pre : String) : Bool := pre.data.isPrefixOf s.data

/-- A filesystem or blob store keyed by κ. -/
abbrev Store (κ : Type) : Type := Map κ Blob

/-- Local filesystem: paths to blobs. -/
abbrev FS : Type := Store String

/-- Errors thrown by filesystem primitives. -/
inductive UErr : Type where
  | enoent
deriving DecidableEq, Repr

/-- The `error.message` the handler reports for a storage error. -/
def UErr.msg : UErr → String
  | .enoent => "ENOENT: no such file or directory"

/-- The local-disk `uploadFile` of storage.ts (lines 31-51): copy the
bytes at `localPath` under `fileName` inside the uploads directory, then
unlink the temporary local file, and return the reference
`"/" ++ fileName`.  `copyFile` throws when the source is gone.  Generic
in the key type so the same translation serves the string-keyed storage
theorems and the `Ref`-keyed pipeline. -/
def uploadFile [DecidableEq κ] (fs : FS) (store : Store κ) (localPath : String)
    (fileName : κ) : Except UErr (FS × Store κ × κ) :=
  match fs localPath with
  | none => .error .enoent
  | some content =>
    let store' := store.update fileName content
    let fs' := fs.erase localPath
    .ok (fs', store', fileName)

/-- Strip one leading slash, as the object-storage variant does to build
its object key. -/
def stripLeadingSlash (s : String) : String :=
  match s.data with
  | '/' :: rest => ⟨rest⟩
  | _ => s

/-- The object-storage `uploadFile` of storage.ts (lines 93-105):
read the bytes at `localPath` (throws when missing), `put` them under the
normalised object key, unlink the temporary local file, and return
`"/" ++ objectKey`. -/
def uploadFileObject (fs : FS) (client : Store String) (localPath : String)
    (fileName : String) : Except UErr (FS × Store String × String) :=
  match fs localPath with
  | none => .error .enoent
  | some content =>
    let objectKey := stripLeadingSlash fileName
    let client' := client.update objectKey content
    let fs' := fs.erase localPath
    .ok (fs', client', "/" ++ objectKey)

/-- Errors `sharp` throws in the non-retrying `processImage` of
routes.ts. -/
inductive PErr : Type where
  | missingInput
  | badFormat
deriving DecidableEq, Repr

/-- The `error.message` for a sharp failure. -/
def PErr.msg : PErr → String
  | .missingInput => "Input file is missing"
  | .badFormat => "Input buffer contains unsupported image format"

/-- The resize condition of both `processImage` variants, with the
JavaScript truthiness of
`metadata.width && metadata.width > 500 || metadata.height && metadata.height > 500`
made explicit: an absent (or zero) dimension contributes false. -/
def jsCond (dims : Option Nat × Option Nat) : Bool :=
  (match dims.1 with | some w => decide (w > 500) | none => false) ||
  (match dims.2 with | some h => decide (h > 500) | none => false)

/-- The plain reading of the resize condition: some dimension exceeds
500px. -/
def dimExceeds (dims : Option Nat × Option Nat) : Prop :=
  (∃ w, dims.1 = some w ∧ w > 500) ∨ (∃ h, dims.2 = some h ∧ h > 500)

/-- The white square fill of the resize call. -/
def whiteFill : Nat × Nat × Nat × Nat := (255, 255, 255, 1)

/-- Output of `image.resize(500, 500, { fit: contain, background: white })`
applied to `b`; `dec` records whether the produced bytes decode. -/
def resize500 (b : Blob) (dec : Bool) : Blob :=
  Blob.contain b 500 500 255 255 255 1 dec

/-- The non-retrying `processImage` of routes.ts (lines 211-226): read
the metadata of the file at `p` (throws when the file is missing or does
not decode), and when a dimension exceeds 500 write the 500×500
contain-resized image next to it, unlink the original and rename the
resized file over it; otherwise leave the file untouched. -/
def processImage (fs : FS) (p : String) : Except PErr FS :=
  match fs p with
  | none => .error .missingInput
  | some b =>
    if ¬ b.isDec then .error .badFormat
    else if jsCond b.dims then
      -- toFile to `p ++ "_resized"`, unlink `p`, rename over `p`
      let rb := resize500 b true
      let fs1 := (fs.update (p ++ "_resized") rb).erase p
      let fs2 := (fs1.erase (p ++ "_resized")).update p rb
      .ok fs2
    else .ok fs

/-- Randomness and failure oracles for one batch run.  `shuffle i` is the
`sort(() => Math.random() - 0.5)` permutation used by pair `i`; `corr i`
is that pair's `Math.floor(Math.random() * 4)`; `trans k` says whether
the image-library attempt at clock tick `k` fails transiently; `corrupt
k` says whether the resize output written at tick `k` is corrupt (so
that the verification re-read fails). -/
structure Oracle : Type where
  shuffle : Nat → List UFile → List UFile
  corr : Nat → Nat
  trans : Nat → Bool
  corrupt : Nat → Bool

/-- One attempt of the retrying `processImage` of part_014 (lines
486-533, the body of the `for` loop): transient failure, metadata read,
conditional resize-unlink-rename, and the verification re-read of the
processed file.  Returns whether the attempt succeeded together with the
filesystem it leaves behind (a corrupt resize output stays renamed over
the original even though the attempt fails at verification). -/
def processAttempt (O : Oracle) (fs : FS) (k : Nat) (p : String) : Bool × FS :=
  if O.trans k then (false, fs)
  else
    match fs p with
    | none => (false, fs)
    | some b =>
      if ¬ b.isDec then (false, fs)
      else if jsCond b.dims then
        let rb := resize500 b (! O.corrupt k)
        let fs1 := (fs.update (p ++ "_resized") rb).erase p
        let fs2 := (fs1.erase (p ++ "_resized")).update p rb
        -- verification: re-read the metadata of the processed file
        if rb.isDec then (true, fs2) else (false, fs2)
      else
        -- within bounds: nothing written; verification re-reads `b`
        (true, fs)

/-- The retry loop of part_014 `processImage` with `fuel` attempts left;
returns success, the final filesystem and the advanced clock (one tick
per attempt made). -/
def processImageGo (O : Oracle) : Nat → FS → Nat → String → Bool × FS × Nat
  | 0, fs, clock, _ => (false, fs, clock)
  | fuel + 1, fs, clock, p =>
    let (ok, fs') := processAttempt O fs clock p
    if ok then (true, fs', clock + 1)
    else if fuel = 0 then (false, fs', clock + 1)
    else processImageGo O fuel fs' (clock + 1) p

/-- The retrying `processImage` of part_014 (lines 484-536,
`maxRetries = 3`): up to three attempts, reporting permanent failure
(`return false`) only after the third failed attempt. -/
def processImageRetry (O : Oracle) (fs : FS) (clock : Nat) (p : String) :
    Bool × FS × Nat :=
  processImageGo O 3 fs clock p

/-- Mutable state the handler threads: the local filesystem of multer
temporaries, the uploads blob store, the flashcards table, the next
fresh-uuid counter and the oracle clock. -/
structure St where
  fs : FS
  store : Store Ref
  db : List Flashcard
  uuid : Nat
  clock : Nat

/-- Run the retrying `processImage` over a list of files in order,
discarding each boolean result — this is how both
`handleFileUpload(files)` and
`Promise.all(otherImages.map(img => processImage(img)))` use it. -/
def processList (O : Oracle) : List UFile → FS → Nat → FS × Nat
  | [], fs, clock => (fs, clock)
  | f :: rest, fs, clock =>
    let r := processImageRetry O fs clock f.path
    processList O rest r.2.1 r.2.2

/-- The `handleFileUpload` preprocessing step of part_014 (lines
539-554): process every uploaded file, keep all of them regardless of
failures, and return them unchanged (only the filesystem and clock
advance). -/
def handleFileUpload (O : Oracle) (files : List UFile) (fs : FS)
    (clock : Nat) : FS × Nat :=
  processList O files fs clock

/-- The `availableImages` computation of one pair (part_014 lines
393-404): the used-image set is freshly created per pair and holds only
the decoded base name of that pair's matching image when the pool is
filtered. -/
def availableImagesFor (matchingImage : UFile) (imageFiles : List UFile) :
    List UFile :=
  let matchingBaseNameDecoded :=
    decodeFileName (baseNameOf matchingImage.originalname)
  let usedImages : List String := [matchingBaseNameDecoded]
  imageFiles.filter
    (fun img => ! usedImages.contains (decodeFileName (baseNameOf img.originalname)))

/-- The selection loop over the shuffled pool (part_014 lines 407-417):
push images whose decoded base name is not yet used, record each pick,
and stop at three. -/
def pickOthers : List UFile → List String → List UFile → List UFile
  | [], _, otherImages => otherImages
  | img :: rest, usedImages, otherImages =>
    let imgBaseName := decodeFileName (baseNameOf img.originalname)
    if usedImages.contains imgBaseName then pickOthers rest usedImages otherImages
    else
      let otherImages' := otherImages ++ [img]
      if otherImages'.length = 3 then otherImages'
      else pickOthers rest (usedImages ++ [imgBaseName]) otherImages'

/-- The three distractors pair `i` selects: shuffle the available pool
and run the selection loop, starting from the used set containing only
this pair's own matching image. -/
def otherImagesFor (O : Oracle) (i : Nat) (matchingImage : UFile)
    (imageFiles : List UFile) : List UFile :=
  let mbase := decodeFileName (baseNameOf matchingImage.originalname)
  pickOthers (O.shuffle i (availableImagesFor matchingImage imageFiles)) [mbase] []

/-- Sequentialised
`Promise.all(allImages.map(file => uploadFile(file.path, images/uuid/ext)))`:
every template string evaluates when `map` runs, so every upload consumes
a uuid in list order whether or not a sibling upload fails; each upload
that finds its source file stores the bytes and unlinks the source. -/
def uploadMany : FS → Store Ref → Nat → List UFile →
    List (Except UErr Ref) × FS × Store Ref × Nat
  | fs, store, u, [] => ([], fs, store, u)
  | fs, store, u, f :: rest =>
    let ref := Ref.img u (extnameOf f.originalname)
    match uploadFile fs store f.path ref with
    | .error e =>
      let (rs, fs', store', u') := uploadMany fs store (u + 1) rest
      (.error e :: rs, fs', store', u')
    | .ok (fs1, store1, r) =>
      let (rs, fs', store', u') := uploadMany fs1 store1 (u + 1) rest
      (.ok r :: rs, fs', store', u')

/-- The `Promise.all` aggregation of the upload results: the value list
when every upload fulfilled, otherwise the first rejection. -/
def collectRefs : List (Except UErr Ref) → Except UErr (List Ref)
  | [] => .ok []
  | .error e :: _ => .error e
  | .ok r :: rest => (collectRefs rest).map (r :: ·)

/-- The JavaScript swap
`[s[0], s[i]] = [s[i], s[0]]` on a copy of the url list: in range it
swaps the two positions; past the end it writes `undefined` into slot 0
and grows the array so that slot `i` holds the old first element, the
gap filled with holes. -/
def jsSwap (l : List Ref) (i : Nat) : List (Option Ref) :=
  let s : List (Option Ref) := l.map some
  let v0 : Option Ref := s.getD 0 none
  let vi : Option Ref := s.getD i none
  if i < s.length then (s.set 0 vi).set i v0
  else ((s.set 0 vi) ++ List.replicate (i - s.length) none) ++ [v0]

/-- Append the freshly inserted row, as
`db.insert(flashcards).values({...}).returning()` does. -/
def insertFlashcard (st : St) (f : Flashcard) : St :=
  { st with db := st.db ++ [f] }

/-- One pair of the part_014 bulk-upload handler (lines 377-465):
unmatched audio fails immediately; otherwise the matching image is
processed (result discarded), the three distractors are selected from
the per-pair pool, processed (results discarded), the audio and the four
images are uploaded, and the flashcard is inserted with the correct
image swapped to a random position.  Any thrown error is caught and
becomes a failure entry for this pair only. -/
def processPair (O : Oracle) (lessonId : Nat) (imageFiles : List UFile)
    (i : Nat) (st : St) (audioFile : UFile) (matchingImage : Option UFile) :
    ItemResult × St :=
  let audioName := basenameFull audioFile.originalname
  match matchingImage with
  | none => (.fail audioName "No matching image found for audio file.", st)
  | some m =>
    let pm := processImageRetry O st.fs st.clock m.path
    let st1 : St := { st with fs := pm.2.1, clock := pm.2.2 }
    let otherImages := otherImagesFor O i m imageFiles
    if otherImages.length < 3 then
      (.fail audioName "Not enough different images for choices", st1)
    else
      let pl := processList O otherImages st1.fs st1.clock
      let st2 : St := { st1 with fs := pl.1, clock := pl.2 }
      let aref := Ref.audio st2.uuid (extnameOf audioFile.originalname)
      match uploadFile st2.fs st2.store audioFile.path aref with
      | .error e => (.fail audioName e.msg, { st2 with uuid := st2.uuid + 1 })
      | .ok (fs3, store3, audioUrl) =>
        let st3 : St :=
          { st2 with fs := fs3, store := store3, uuid := st2.uuid + 1 }
        let allImages := m :: otherImages
        let um := uploadMany st3.fs st3.store st3.uuid allImages
        let st4 : St :=
          { st3 with fs := um.2.1, store := um.2.2.1, uuid := um.2.2.2 }
        match collectRefs um.1 with
        | .error e => (.fail audioName e.msg, st4)
        | .ok imageUrls =>
          let correctImageIndex := O.corr i
          let shuffledImageUrls := jsSwap imageUrls correctImageIndex
          let f : Flashcard :=
            { lessonId := lessonId, audioUrl := audioUrl,
              imageChoices := shuffledImageUrls,
              correctImageIndex := correctImageIndex }
          (.ok audioName f, insertFlashcard st4 f)

/-- Sequential processing of the matched pairs, pair index threaded for
the per-pair randomness. -/
def runPairs (O : Oracle) (lessonId : Nat) (imageFiles : List UFile) :
    Nat → St → List (UFile × Option UFile) → List ItemResult × St
  | _, st, [] => ([], st)
  | i, st, (a, m) :: rest =>
    let r := processPair O lessonId imageFiles i st a m
    let rs := runPairs O lessonId imageFiles (i + 1) r.2 rest
    (r.1 :: rs.1, rs.2)

/-- The pairing step shared by both handlers (part_014 lines 368-374,
routes.ts lines 130-136): every audio file is paired with the first
image of equal base name, or `none`. -/
def matchedPairsOf (audioFiles imageFiles : List UFile) :
    List (UFile × Option UFile) :=
  audioFiles.map (fun audioFile =>
    let audioBaseName := baseNameOf audioFile.originalname
    (audioFile,
      imageFiles.find?
        (fun imgFile => baseNameOf imgFile.originalname == audioBaseName)))

/-- The part_014 bulk-upload handler: preprocess every file through
`handleFileUpload`, reject an empty batch, split by MIME prefix, reject
when either side is empty, then process the matched pairs and aggregate
the report. -/
def bulkUpload (O : Oracle) (lessonId : Nat) (uploadedFiles : List UFile)
    (st : St) : Resp × St :=
  let h := handleFileUpload O uploadedFiles st.fs st.clock
  let st0 : St := { st with fs := h.1, clock := h.2 }
  if uploadedFiles.length = 0 then (.badRequest "所有文件处理失败", st0)
  else
    let audioFiles := uploadedFiles.filter (fun f => strStartsWith f.mimetype "audio/")
    let imageFiles := uploadedFiles.filter (fun f => strStartsWith f.mimetype "image/")
    if audioFiles.length = 0 ∨ imageFiles.length = 0 then
      (.badRequest "Both audio and image files are required.", st0)
    else
      let matchedPairs := matchedPairsOf audioFiles imageFiles
      let run := runPairs O lessonId imageFiles 0 st0 matchedPairs
      (.ok { total := matchedPairs.length,
             successful := (run.1.filter (fun r => r.isOk)).length,
             failed := (run.1.filter (fun r => ! r.isOk)).length,
             results := run.1 }, run.2)

/-- Sequentialised `Promise.all(otherImages.map(img => processImage(img)))`
for the throwing `processImage`: every call starts, so every successful
resize mutates the filesystem even when a sibling call rejects; the
aggregate rejects with the first error in order. -/
def processAllRoutes : List UFile → FS → FS × Option PErr
  | [], fs => (fs, none)
  | f :: rest, fs =>
    match processImage fs f.path with
    | .error e =>
      let r := processAllRoutes rest fs
      (r.1, some e)
    | .ok fs1 =>
      let r := processAllRoutes rest fs1
      (r.1, r.2)

/-- One pair of the routes.ts bulk-upload handler (lines 139-192):
process the matching image, take three random other images (no length
check, no cross-pair bookkeeping), process them, upload everything and
insert the flashcard with the correct image swapped to a random
position; any thrown error is caught into a failure entry for this pair
only and leaves the flashcards table untouched. -/
def processPairRoutes (O : Oracle) (lessonId : Nat) (imageFiles : List UFile)
    (i : Nat) (st : St) (audioFile : UFile) (matchingImage : Option UFile) :
    ItemResult × St :=
  let audioName := basenameFull audioFile.originalname
  match matchingImage with
  | none => (.fail audioName "No matching image found for audio file.", st)
  | some m =>
    match processImage st.fs m.path with
    | .error e => (.fail audioName e.msg, st)
    | .ok fs1 =>
      let st1 : St := { st with fs := fs1 }
      let otherImages := (O.shuffle i (imageFiles.filter (fun img => img != m))).take 3
      let pr := processAllRoutes otherImages st1.fs
      let st2 : St := { st1 with fs := pr.1 }
      match pr.2 with
      | some e => (.fail audioName e.msg, st2)
      | none =>
        let aref := Ref.audio st2.uuid (extnameOf audioFile.originalname)
        match uploadFile st2.fs st2.store audioFile.path aref with
        | .error e => (.fail audioName e.msg, { st2 with uuid := st2.uuid + 1 })
        | .ok (fs3, store3, audioUrl) =>
          let st3 : St :=
            { st2 with fs := fs3, store := store3, uuid := st2.uuid + 1 }
          let um := uploadMany st3.fs st3.store st3.uuid (m :: otherImages)
          let st4 : St :=
            { st3 with fs := um.2.1, store := um.2.2.1, uuid := um.2.2.2 }
          match collectRefs um.1 with
          | .error e => (.fail audioName e.msg, st4)
          | .ok imageUrls =>
            let correctImageIndex := O.corr i
            let f : Flashcard :=
              { lessonId := lessonId, audioUrl := audioUrl,
                imageChoices := jsSwap imageUrls correctImageIndex,
                correctImageIndex := correctImageIndex }
            (.ok audioName f, insertFlashcard st4 f)

/-- Sequential processing of the matched pairs for the routes.ts
variant. -/
def runPairsRoutes (O : Oracle) (lessonId : Nat) (imageFiles : List UFile) :
    Nat → St → List (UFile × Option UFile) → List ItemResult × St
  | _, st, [] => ([], st)
  | i, st, (a, m) :: rest =>
    let r := processPairRoutes O lessonId imageFiles i st a m
    let rs := runPairsRoutes O lessonId imageFiles (i + 1) r.2 rest
    (r.1 :: rs.1, rs.2)

/-- The routes.ts bulk-upload handler: split by MIME prefix, reject when
either side is empty, process the matched pairs and aggregate the
report. -/
def bulkUploadRoutes (O : Oracle) (lessonId : Nat) (files : List UFile)
    (st : St) : Resp × St :=
  let audioFiles := files.filter (fun f => strStartsWith f.mimetype "audio/")
  let imageFiles := files.filter (fun f => strStartsWith f.mimetype "image/")
  if audioFiles.length = 0 ∨ imageFiles.length = 0 then
    (.badRequest "Both audio and image files are required.", st)
  else
    let matchedPairs := matchedPairsOf audioFiles imageFiles
    let run := runPairsRoutes O lessonId imageFiles 0 st matchedPairs
    (.ok { total := matchedPairs.length,
           successful := (run.1.filter (fun r => r.isOk)).length,
           failed := (run.1.filter (fun r => ! r.isOk)).length,
           results := run.1 }, run.2)

/-- State for the bulk-import handler: as `St` but with the lessons
table modelled by its next serial id (keys here carry no uuid). -/
structure StI where
  fs : FS
  store : Store Ref
  db : List Flashcard
  clock : Nat
  nextLessonId : Nat

/-- The bulk-import response: a 400 error or `{ imported, results }`. -/
inductive RespI : Type where
  | badRequest (msg : String)
  | ok (imported : Nat) (results : List ItemResult)
deriving DecidableEq, Repr

/-- Model of `imageChoices.splice(correctIndex, 0, correctImageUrl)`:
insert at the index, clamped to the array length as
`Array.prototype.splice` clamps its start argument. -/
def spliceInsert : List Ref → Nat → Ref → List Ref
  | l, 0, x => x :: l
  | [], _ + 1, x => [x]
  | a :: l, n + 1, x => a :: spliceInsert l n x

/-- Sequentialised upload of the distractors under
`lessons/{id}/images/{basename}` keys. -/
def uploadManyLesson : FS → Store Ref → Nat → List UFile →
    List (Except UErr Ref) × FS × Store Ref
  | fs, store, _, [] => ([], fs, store)
  | fs, store, lid, f :: rest =>
    let ref := Ref.lessonImg lid (basenameFull f.originalname)
    match uploadFile fs store f.path ref with
    | .error e =>
      let r := uploadManyLesson fs store lid rest
      (.error e :: r.1, r.2.1, r.2.2)
    | .ok (fs1, store1, _) =>
      let r := uploadManyLesson fs1 store1 lid rest
      (.ok ref :: r.1, r.2.1, r.2.2)

/-- The pairing step of bulk-import (lines 726-742): the matching image
by base name plus up to three random images of a different base name,
chosen while building the pair list. -/
def matchedPairsImport (O : Oracle) (audioFiles imageFiles : List UFile) :
    List (UFile × Option UFile × List UFile) :=
  audioFiles.enum.map (fun p =>
    let i := p.1
    let audioFile := p.2
    let audioBaseName := baseNameOf audioFile.originalname
    let matchingImage := imageFiles.find?
      (fun imgFile => baseNameOf imgFile.originalname == audioBaseName)
    let otherImages :=
      (O.shuffle i (imageFiles.filter
        (fun img => baseNameOf img.originalname != audioBaseName))).take 3
    (audioFile, matchingImage, otherImages))

/-- One pair of the bulk-import handler (lines 752-827). -/
def processPairImport (O : Oracle) (newLessonId : Nat) (i : Nat) (st : StI)
    (audioFile : UFile) (matchingImage : Option UFile)
    (otherImages : List UFile) : ItemResult × StI :=
  let audioName := basenameFull audioFile.originalname
  match matchingImage with
  | none => (.fail audioName "No matching image found", st)
  | some m =>
    let pm := processImageRetry O st.fs st.clock m.path
    let st1 : StI := { st with fs := pm.2.1, clock := pm.2.2 }
    let aref := Ref.lessonAudio newLessonId (basenameFull audioFile.originalname)
    match uploadFile st1.fs st1.store audioFile.path aref with
    | .error e => (.fail audioName e.msg, st1)
    | .ok (fs2, store2, audioUrl) =>
      let st2 : StI := { st1 with fs := fs2, store := store2 }
      let cref := Ref.lessonImg newLessonId (basenameFull m.originalname)
      match uploadFile st2.fs st2.store m.path cref with
      | .error e => (.fail audioName e.msg, st2)
      | .ok (fs3, store3, correctImageUrl) =>
        let st3 : StI := { st2 with fs := fs3, store := store3 }
        let pl := processList O otherImages st3.fs st3.clock
        let st4 : StI := { st3 with fs := pl.1, clock := pl.2 }
        let ou := uploadManyLesson st4.fs st4.store newLessonId otherImages
        let st5 : StI := { st4 with fs := ou.2.1, store := ou.2.2 }
        match collectRefs ou.1 with
        | .error e => (.fail audioName e.msg, st5)
        | .ok otherImageUrls =>
          let correctIndex := O.corr i
          let imageChoices := spliceInsert otherImageUrls correctIndex correctImageUrl
          let f : Flashcard :=
            { lessonId := newLessonId, audioUrl := audioUrl,
              imageChoices := imageChoices.map some,
              correctImageIndex := correctIndex }
          (.ok audioName f, { st5 with db := st5.db ++ [f] })

/-- Sequential processing of the bulk-import pairs. -/
def runPairsImport (O : Oracle) (newLessonId : Nat) :
    Nat → StI → List (UFile × Option UFile × List UFile) →
    List ItemResult × StI
  | _, st, [] => ([], st)
  | i, st, (a, m, o) :: rest =>
    let r := processPairImport O newLessonId i st a m o
    let rs := runPairsImport O newLessonId (i + 1) r.2 rest
    (r.1 :: rs.1, rs.2)

/-- The part_014 bulk-import handler: guard the empty upload and the
missing title, create the lesson row, split by MIME prefix, guard, then
process pairs and return `{ imported, results }`. -/
def bulkImport (O : Oracle) (title : String) (files : List UFile)
    (st : StI) : RespI × StI :=
  if files.length = 0 then (.badRequest "No files uploaded", st)
  else if title = "" then (.badRequest "Lesson title is required", st)
  else
    let newLessonId := st.nextLessonId
    let st0 : StI := { st with nextLessonId := st.nextLessonId + 1 }
    let audioFiles := files.filter (fun f => strStartsWith f.mimetype "audio/")
    let imageFiles := files.filter (fun f => strStartsWith f.mimetype "image/")
    if audioFiles.length = 0 ∨ imageFiles.length = 0 then
      (.badRequest "Both audio and image files are required", st0)
    else
      let pairs := matchedPairsImport O audioFiles imageFiles
      let run := runPairsImport O newLessonId 0 st0 pairs
      (.ok ((run.1.filter (fun r => r.isOk)).length) run.1, run.2)

/-- Every blob the filesystem holds after a step derives (at the same
path) from a blob it held before, with the same source identity: steps
may rewrite file contents in place or delete files, but never introduce
bytes of a new source under any path. -/
def SrcStable (fs fs' : FS) : Prop :=
  ∀ p b', fs' p = some b' → ∃ b, fs p = some b ∧ b'.srcId = b.srcId

/-- Distinct paths hold bytes of distinct sources. -/
def Inj (fs : FS) : Prop :=
  ∀ p q b c, fs p = some b → fs q = some c → b.srcId = c.srcId → p = q

/-- Some path of the filesystem holds bytes of source `s`. -/
def HasSrc (fs : FS) (s : Nat) : Prop :=
  ∃ p b, fs p = some b ∧ b.srcId = s

/-- The references a record offers as answer choices. -/
def choiceRefs (f : Flashcard) : List Ref := f.imageChoices.filterMap id

/-- Two records share no source image: choices of one and choices of the
other never resolve in the store to blobs of the same source. -/
def NoSharedSource (store : Store Ref) (f g : Flashcard) : Prop :=
  ∀ r1 r2 b1 b2, r1 ∈ choiceRefs f → r2 ∈ choiceRefs g →
    store r1 = some b1 → store r2 = some b2 → b1.srcId ≠ b2.srcId

/-- An audio upload named `name`, with source identity `i`. -/
def audioU (name : String) : UFile :=
  ⟨name, "audio/mpeg", "/tmp/uploads/" ++ name⟩

/-- An image upload named `name`. -/
def imageU (name : String) : UFile :=
  ⟨name, "image/png", "/tmp/uploads/" ++ name⟩

/-- Deterministic oracle: the comparator sort leaves the pool in place,
the random correct index is 0, and no transient failure or corrupt
output occurs. -/
def oracle0 : Oracle := ⟨fun _ l => l, fun _ => 0, fun _ => false, fun _ => false⟩

/-- Oracle whose random correct index is 3 (a value
`Math.floor(Math.random() * 4)` takes with probability 1/4). -/
def oracle3 : Oracle := ⟨fun _ l => l, fun _ => 3, fun _ => false, fun _ => false⟩

/-- Oracle whose random correct index is 2. -/
def oracle2 : Oracle := ⟨fun _ l => l, fun _ => 2, fun _ => false, fun _ => false⟩

/-- The record the routes.ts bulk-upload handler creates on the batch
`filesAB` with random index 2: only one distractor exists, so the
JavaScript swap writes an undefined hole into slot 0 and grows the list
to put the matched image at index 2. -/
def abCard : Flashcard :=
  { lessonId := 7, audioUrl := .audio 0 ".mp3",
    imageChoices := [none, some (.img 2 ".png"), some (.img 1 ".png")],
    correctImageIndex := 2 }

/-- The report of that routes.ts run. -/
def reportAB : Report :=
  { total := 1, successful := 1, failed := 0, results := [.ok "a.mp3" abCard] }

/-- The batch of the C1 counterexample: two audio files and five images,
all pairs well formed. -/
def filesCat : List UFile :=
  [audioU "cat.mp3", audioU "dog.mp3",
   imageU "cat.png", imageU "dog.png", imageU "bird.png",
   imageU "fish.png", imageU "tree.png"]

/-- Decodable 100×100 image bytes of source `i`. -/
def imgBlob (i : Nat) : Blob := .file i (some 100) (some 100) true

/-- Audio bytes of source `i` (not decodable as an image). -/
def audBlob (i : Nat) : Blob := .file i none none false

/-- The multer temporaries for `filesCat`. -/
def fsCat : FS := fun p =>
  if p = "/tmp/uploads/cat.mp3" then some (audBlob 0)
  else if p = "/tmp/uploads/dog.mp3" then some (audBlob 1)
  else if p = "/tmp/uploads/cat.png" then some (imgBlob 2)
  else if p = "/tmp/uploads/dog.png" then some (imgBlob 3)
  else if p = "/tmp/uploads/bird.png" then some (imgBlob 4)
  else if p = "/tmp/uploads/fish.png" then some (imgBlob 5)
  else if p = "/tmp/uploads/tree.png" then some (imgBlob 6)
  else none

/-- Fresh handler state over a filesystem. -/
def st0 (fs : FS) : St := ⟨fs, fun _ => none, [], 0, 0⟩

/-- Fresh bulk-import state over a filesystem (next lesson id 1). -/
def stI0 (fs : FS) : StI := ⟨fs, fun _ => none, [], 0, 1⟩

/-- The image pool of `filesCat` as the handler computes it. -/
def imagesCat : List UFile :=
  filesCat.filter (fun f => strStartsWith f.mimetype "image/")

/-- The batch of the C4 counterexample: one audio file and two images,
so that only one distractor exists. -/
def filesAB : List UFile := [audioU "a.mp3", imageU "a.png", imageU "b.png"]

/-- The multer temporaries for `filesAB`. -/
def fsAB : FS := fun p =>
  if p = "/tmp/uploads/a.mp3" then some (audBlob 0)
  else if p = "/tmp/uploads/a.png" then some (imgBlob 1)
  else if p = "/tmp/uploads/b.png" then some (imgBlob 2)
  else none

/-- The minimal batch of the C3 scenario: audio `a.mp3`, image `a.png`
only. -/
def filesA : List UFile := [audioU "a.mp3", imageU "a.png"]

/-- The multer temporaries for `filesA`. -/
def fsA : FS := fun p =>
  if p = "/tmp/uploads/a.mp3" then some (audBlob 0)
  else if p = "/tmp/uploads/a.png" then some (imgBlob 1)
  else none

/-- A batch whose single image does not decode (normalization always
fails), for the C2 witness. -/
def fsABad : FS := fun p =>
  if p = "/tmp/uploads/a.mp3" then some (audBlob 0)
  else if p = "/tmp/uploads/a.png" then some (.file 1 (some 100) (some 100) false)
  else none

def fsBig : FS := fun p =>
  if p = "/tmp/uploads/big.png" then some (.file 9 (some 800) (some 600) true)
  else none

/-- The record the demo cat/dog batch creates for the cat pair. -/
def catCard : Flashcard :=
  { lessonId := 7, audioUrl := .audio 0 ".mp3",
    imageChoices := [some (.img 1 ".png"), some (.img 2 ".png"),
      some (.img 3 ".png"), some (.img 4 ".png")],
    correctImageIndex := 0 }

/-- The concrete report the demo cat/dog batch produces. -/
def reportCat : Report :=
  { total := 2, successful := 1, failed := 1,
    results :=
      [.ok "cat.mp3" catCard,
       .fail "dog.mp3" "ENOENT: no such file or directory"] }

/-- Batch with one audio file and no image of matching base name. -/
def filesB : List UFile := [audioU "b.mp3", imageU "a.png"]

/-- The multer temporaries for `filesB`. -/
def fsB : FS := fun p =>
  if p = "/tmp/uploads/b.mp3" then some (audBlob 0)
  else if p = "/tmp/uploads/a.png" then some (imgBlob 1)
  else none

/-- The report of the all-images-undecodable demo batch. -/
def reportBad : Report :=
  { total := 1, successful := 0, failed := 1,
    results := [.fail "a.mp3" "Input buffer contains unsupported image format"] }

/-- State evolution across handler steps: filesystem sources only
shrink, the uuid counter only grows, and store entries under
already-consumed uuid keys are never touched again. -/
def Evolves (s t : St) : Prop :=
  SrcStable s.fs t.fs ∧ s.uuid ≤ t.uuid ∧
  ∀ n e, n < s.uuid → t.store (Ref.img n e) = s.store (Ref.img n e)

/-- What one successful pair contributes: a record whose choice
references live at uuid keys consumed by this pair, which resolve in the
resulting store to blobs whose sources were drawn from (and by then
removed from) the filesystem. -/
def NewRec (st stout : St) (fc : Flashcard) : Prop :=
  (∀ r ∈ choiceRefs fc, ∃ n e, r = Ref.img n e ∧ st.uuid ≤ n ∧ n < stout.uuid) ∧
  (∀ r ∈ choiceRefs fc, ∃ b, stout.store r = some b ∧
    ¬ HasSrc stout.fs b.srcId ∧ HasSrc st.fs b.srcId)

/-- Record health relative to a state: its choice references sit at
already-consumed uuid keys, and resolve in the store to blobs whose
sources are no longer on the local filesystem. -/
def RecGoodSt (st : St) (f : Flashcard) : Prop :=
  ∀ r ∈ choiceRefs f, (∃ n e, r = Ref.img n e ∧ n < st.uuid) ∧
    ∃ b, st.store r = some b ∧ ¬ HasSrc st.fs b.srcId

/-- The batch invariant: an injective filesystem, healthy records, and
pairwise source-disjoint records. -/
def Inv (st : St) : Prop :=
  Inj st.fs ∧ (∀ f ∈ st.db, RecGoodSt st f) ∧
  List.Pairwise (NoSharedSource st.store) st.db

/-! Theorems. -/

@[simp] theorem Map.update_self [DecidableEq κ] (m : Map κ α) (k : κ) (a : α) :
    Map.update m k a k = some a := by simp [Map.update]

@[simp] theorem Map.update_ne [DecidableEq κ] (m : Map κ α) {k q : κ} (a : α)
    (h : q ≠ k) : Map.update m k a q = m q := by simp [Map.update, h]

@[simp] theorem Map.erase_self [DecidableEq κ] (m : Map κ α) (k : κ) :
    Map.erase m k k = none := by simp [Map.erase]

@[simp] theorem Map.erase_ne [DecidableEq κ] (m : Map κ α) {k q : κ}
    (h : q ≠ k) : Map.erase m k q = m q := by simp [Map.erase, h]

@[simp] theorem Blob.srcId_contain (s : Blob) (w h r g b a : Nat) (d : Bool) :
    (Blob.contain s w h r g b a d).srcId = s.srcId := rfl

/-! Theorems. -/
@[simp] theorem resize500_isDec (b : Blob) (d : Bool) : (resize500 b d).isDec = d := rfl

@[simp] theorem resize500_dims (b : Blob) (d : Bool) : (resize500 b d).dims = (some 500, some 500) := rfl

theorem append_resized_ne (p : String) : p ++ "_resized" ≠ p := by
  intro h
  have h2 : (p ++ "_resized").length = p.length := congrArg String.length h
  rw [String.length_append] at h2
  have h3 : "_resized".length = 8 := rfl
  omega

theorem processAttempt_ok_dec (O : Oracle) (fs : FS) (k : Nat) (p : String)
    (h : (processAttempt O fs k p).1 = true) :
    ∃ b, (processAttempt O fs k p).2 p = some b ∧ b.isDec = true := by
  by_cases htr : O.trans k
  · simp [processAttempt, htr] at h
  · rcases hfs : fs p with _ | b
    · simp [processAttempt, htr, hfs] at h
    · by_cases hd : b.isDec
      · by_cases hc : jsCond b.dims
        · by_cases hco : (resize500 b (! O.corrupt k)).isDec
          · refine ⟨resize500 b (! O.corrupt k), ?_, hco⟩
            simp [processAttempt, htr, hfs, hd, hc, hco, Map.update_self]
          · simp [processAttempt, htr, hfs, hd, hc] at h
            simp_all
        · exact ⟨b, by simp [processAttempt, htr, hfs, hd, hc, hfs], hd⟩
      · simp [processAttempt, htr, hfs, hd] at h

theorem processImageGo_clock (O : Oracle) :
    ∀ fuel fs clock p, fuel ≠ 0 →
      clock + 1 ≤ (processImageGo O fuel fs clock p).2.2 ∧
      (processImageGo O fuel fs clock p).2.2 ≤ clock + fuel ∧
      ((processImageGo O fuel fs clock p).1 = false →
        (processImageGo O fuel fs clock p).2.2 = clock + fuel)
  | 0, fs, clock, p, h => absurd rfl h
  | fuel + 1, fs, clock, p, _ => by
    rcases ha : processAttempt O fs clock p with ⟨ok, fs'⟩
    by_cases hok : ok = true
    · simp only [processImageGo, ha, hok, if_true]
      refine ⟨by omega, by omega, ?_⟩
      intro hfalse
      exact absurd hfalse (by simp)
    · have hok' : ok = false := by simpa using hok
      subst hok'
      by_cases hf : fuel = 0
      · subst hf
        simp only [processImageGo, ha]
        norm_num
      · have ih := processImageGo_clock O fuel fs' (clock + 1) p hf
        simp only [processImageGo, ha, hf]
        norm_num
        refine ⟨by omega, by omega, fun hfail => ?_⟩
        have := ih.2.2 hfail
        omega

theorem processImageGo_ok (O : Oracle) :
    ∀ fuel fs clock p,
      (processImageGo O fuel fs clock p).1 = true →
      ∃ b, (processImageGo O fuel fs clock p).2.1 p = some b ∧ b.isDec = true
  | 0, fs, clock, p, h => by simp [processImageGo] at h
  | fuel + 1, fs, clock, p, h => by
    rcases ha : processAttempt O fs clock p with ⟨ok, fs'⟩
    by_cases hok : ok = true
    · subst hok
      have := processAttempt_ok_dec O fs clock p (by rw [ha])
      rw [ha] at this
      simpa [processImageGo, ha] using this
    · have hok' : ok = false := by simpa using hok
      subst hok'
      by_cases hf : fuel = 0
      · subst hf
        simp [processImageGo, ha] at h
      · have hrec := processImageGo_ok O fuel fs' (clock + 1) p
        simp only [processImageGo, ha, hf] at h ⊢
        norm_num at h ⊢
        exact hrec h

/-- Claim C6: image normalization makes between one and three attempts,
reports permanent failure only after the third failed attempt, and when
it reports success the file it leaves behind decodes (the verification
re-read succeeded), so a corrupt output is never reported as success. -/
theorem C6_retry_and_verification (O : Oracle) (fs : FS) (clock : Nat) (p : String) :
    (clock + 1 ≤ (processImageRetry O fs clock p).2.2 ∧
      (processImageRetry O fs clock p).2.2 ≤ clock + 3) ∧
    ((processImageRetry O fs clock p).1 = false →
      (processImageRetry O fs clock p).2.2 = clock + 3) ∧
    ((processImageRetry O fs clock p).1 = true →
      ∃ b, (processImageRetry O fs clock p).2.1 p = some b ∧ b.isDec = true) := by
  have hc := processImageGo_clock O 3 fs clock p (by omega)
  exact ⟨⟨hc.1, hc.2.1⟩, hc.2.2, processImageGo_ok O 3 fs clock p⟩

theorem C6_witness :
    (processImageRetry oracle0 fsA 0 "/tmp/uploads/a.png").1 = true ∧
    (∃ b, (processImageRetry oracle0 fsA 0 "/tmp/uploads/a.png").2.1 "/tmp/uploads/a.png" = some b ∧
      b.isDec = true) ∧
    (processImageRetry oracle0 fsABad 0 "/tmp/uploads/a.png").1 = false ∧
    (processImageRetry oracle0 fsABad 0 "/tmp/uploads/a.png").2.2 = 0 + 3 :=
  ⟨by decide,
   (C6_retry_and_verification oracle0 fsA 0 "/tmp/uploads/a.png").2.2 (by decide),
   by decide,
   (C6_retry_and_verification oracle0 fsABad 0 "/tmp/uploads/a.png").2.1 (by decide)⟩

theorem jsCond_iff (d : Option Nat × Option Nat) :
    jsCond d = true ↔ dimExceeds d := by
  rcases d with ⟨w, h⟩
  rcases w with _ | wv <;> rcases h with _ | hv <;>
    simp [jsCond, dimExceeds]

/-- Claim C7: the normalizer of routes.ts resizes exactly when a
dimension exceeds 500px; an image already within bounds passes through
with the filesystem — hence its bytes — entirely unchanged, and a
resized image is replaced in place by the 500×500 contain-fit of the
original over the white fill (a square canvas, aspect ratio preserved by
the contain fit), with the temporary `_resized` file removed and no
other path touched. -/
theorem C7_resize_policy (fs : FS) (p : String) (b : Blob)
    (hb : fs p = some b) (hd : b.isDec = true) :
    (jsCond b.dims = true ↔ dimExceeds b.dims) ∧
    (¬ dimExceeds b.dims → processImage fs p = .ok fs) ∧
    (dimExceeds b.dims → ∃ fs', processImage fs p = .ok fs' ∧
      fs' p = some (resize500 b true) ∧
      resize500 b true = Blob.contain b 500 500 255 255 255 1 true ∧
      (resize500 b true).dims = (some 500, some 500) ∧
      fs' (p ++ "_resized") = none ∧
      ∀ q, q ≠ p → q ≠ p ++ "_resized" → fs' q = fs q) := by
  refine ⟨jsCond_iff b.dims, ?_, ?_⟩
  · intro hnd
    have hc : jsCond b.dims = false := by
      rcases hcc : jsCond b.dims with _ | _
      · rfl
      · exact absurd ((jsCond_iff b.dims).1 hcc) hnd
    simp [processImage, hb, hd, hc]
  · intro hdim
    have hc : jsCond b.dims = true := (jsCond_iff b.dims).2 hdim
    refine ⟨(((fs.update (p ++ "_resized") (resize500 b true)).erase p).erase
        (p ++ "_resized")).update p (resize500 b true),
      by simp [processImage, hb, hd, hc], ?_, rfl, rfl, ?_, ?_⟩
    · simp [Map.update_self]
    · rw [Map.update_ne _ _ (append_resized_ne p), Map.erase_self]
    · intro q hqp hqr
      rw [Map.update_ne _ _ hqp, Map.erase_ne _ hqr, Map.erase_ne _ hqp,
        Map.update_ne _ _ hqr]

theorem C7_witness :
    processImage fsA "/tmp/uploads/a.png" = .ok fsA ∧
    (∃ fs', processImage fsBig "/tmp/uploads/big.png" = .ok fs' ∧
      fs' "/tmp/uploads/big.png" = some (resize500 (.file 9 (some 800) (some 600) true) true) ∧
      resize500 (.file 9 (some 800) (some 600) true) true =
        Blob.contain (.file 9 (some 800) (some 600) true) 500 500 255 255 255 1 true ∧
      (resize500 (.file 9 (some 800) (some 600) true) true).dims = (some 500, some 500) ∧
      fs' ("/tmp/uploads/big.png" ++ "_resized") = none ∧
      ∀ q, q ≠ "/tmp/uploads/big.png" → q ≠ "/tmp/uploads/big.png" ++ "_resized" →
        fs' q = fsBig q) := by
  constructor
  · have hnd : ¬ dimExceeds (imgBlob 1).dims := by
      rintro (⟨w, hw, hgt⟩ | ⟨h, hh, hgt⟩)
      · have : (100 : Nat) = w := by simpa [imgBlob, Blob.dims] using hw
        omega
      · have : (100 : Nat) = h := by simpa [imgBlob, Blob.dims] using hh
        omega
    exact (C7_resize_policy fsA "/tmp/uploads/a.png" (imgBlob 1) (by decide) (by decide)).2.1 hnd
  · exact (C7_resize_policy fsBig "/tmp/uploads/big.png" (.file 9 (some 800) (some 600) true)
      (by decide) (by decide)).2.2 (Or.inl ⟨800, rfl, by omega⟩)

/-- Claim C10: both `uploadFile` variants that the bulk pipeline can be
configured with delete the local source file after storing its bytes
under the given key, a call on a missing local path fails, and therefore
a second call for the same local path — with any key and any store —
fails: the bytes at a local path are persisted at most once per batch. -/
theorem C10_uploadFile_deletes_source (fs : FS) (store client : Store String)
    (p k : String) :
    (∀ fs' store' url, uploadFile fs store p k = .ok (fs', store', url) →
      fs' p = none ∧ store' k = fs p ∧ url = k ∧
      ∀ (store2 : Store String) (k2 : String),
        uploadFile fs' store2 p k2 = .error .enoent) ∧
    (fs p = none → uploadFile fs store p k = .error .enoent) ∧
    (∀ fs' client' url, uploadFileObject fs client p k = .ok (fs', client', url) →
      fs' p = none ∧ client' (stripLeadingSlash k) = fs p ∧
      url = "/" ++ stripLeadingSlash k ∧
      ∀ (client2 : Store String) (k2 : String),
        uploadFileObject fs' client2 p k2 = .error .enoent) ∧
    (fs p = none → uploadFileObject fs client p k = .error .enoent) := by
  refine ⟨?_, ?_, ?_, ?_⟩
  · intro fs' store' url h
    rcases hfs : fs p with _ | b
    · simp [uploadFile, hfs] at h
    · simp only [uploadFile, hfs, Except.ok.injEq, Prod.mk.injEq] at h
      obtain ⟨rfl, rfl, rfl⟩ := h
      refine ⟨by simp [Map.erase_self], by simp [Map.update_self, hfs], rfl, ?_⟩
      intro store2 k2
      simp [uploadFile, Map.erase_self]
  · intro h
    simp [uploadFile, h]
  · intro fs' client' url h
    rcases hfs : fs p with _ | b
    · simp [uploadFileObject, hfs] at h
    · simp only [uploadFileObject, hfs, Except.ok.injEq, Prod.mk.injEq] at h
      obtain ⟨rfl, rfl, rfl⟩ := h
      refine ⟨by simp [Map.erase_self], by simp [Map.update_self, hfs], rfl, ?_⟩
      intro client2 k2
      simp [uploadFileObject, Map.erase_self]
  · intro h
    simp [uploadFileObject, h]

theorem C10_witness :
    (∃ fs' store' url,
      uploadFile fsA (fun _ => none) "/tmp/uploads/a.png" "images/u1.png" =
        .ok (fs', store', url) ∧
      fs' "/tmp/uploads/a.png" = none ∧
      store' "images/u1.png" = fsA "/tmp/uploads/a.png" ∧
      uploadFile fs' (fun _ => none) "/tmp/uploads/a.png" "images/u2.png" =
        .error .enoent) := by
  refine ⟨_, _, _, rfl, ?_⟩
  have h := (C10_uploadFile_deletes_source fsA (fun _ => none) (fun _ => none)
    "/tmp/uploads/a.png" "images/u1.png").1 _ _ _ rfl
  exact ⟨h.1, h.2.1, h.2.2.2 _ _⟩

theorem bulkUpload_ok_inv (O : Oracle) (lessonId : Nat) (files : List UFile)
    (st : St) (report : Report) (st' : St)
    (h : bulkUpload O lessonId files st = (.ok report, st')) :
    report =
      { total := (matchedPairsOf (files.filter (fun f => strStartsWith f.mimetype "audio/"))
          (files.filter (fun f => strStartsWith f.mimetype "image/"))).length,
        successful := ((runPairs O lessonId
            (files.filter (fun f => strStartsWith f.mimetype "image/")) 0
            { st with fs := (handleFileUpload O files st.fs st.clock).1,
                      clock := (handleFileUpload O files st.fs st.clock).2 }
            (matchedPairsOf (files.filter (fun f => strStartsWith f.mimetype "audio/"))
              (files.filter (fun f => strStartsWith f.mimetype "image/")))).1.filter
            (fun r => r.isOk)).length,
        failed := ((runPairs O lessonId
            (files.filter (fun f => strStartsWith f.mimetype "image/")) 0
            { st with fs := (handleFileUpload O files st.fs st.clock).1,
                      clock := (handleFileUpload O files st.fs st.clock).2 }
            (matchedPairsOf (files.filter (fun f => strStartsWith f.mimetype "audio/"))
              (files.filter (fun f => strStartsWith f.mimetype "image/")))).1.filter
            (fun r => ! r.isOk)).length,
        results := (runPairs O lessonId
            (files.filter (fun f => strStartsWith f.mimetype "image/")) 0
            { st with fs := (handleFileUpload O files st.fs st.clock).1,
                      clock := (handleFileUpload O files st.fs st.clock).2 }
            (matchedPairsOf (files.filter (fun f => strStartsWith f.mimetype "audio/"))
              (files.filter (fun f => strStartsWith f.mimetype "image/")))).1 } ∧
    st' = (runPairs O lessonId
        (files.filter (fun f => strStartsWith f.mimetype "image/")) 0
        { st with fs := (handleFileUpload O files st.fs st.clock).1,
                  clock := (handleFileUpload O files st.fs st.clock).2 }
        (matchedPairsOf (files.filter (fun f => strStartsWith f.mimetype "audio/"))
          (files.filter (fun f => strStartsWith f.mimetype "image/")))).2 := by
  unfold bulkUpload at h
  by_cases hf : files.length = 0
  · rw [if_pos hf] at h
    simp [Prod.ext_iff] at h
  · rw [if_neg hf] at h
    by_cases hg : (files.filter (fun f => strStartsWith f.mimetype "audio/")).length = 0 ∨
        (files.filter (fun f => strStartsWith f.mimetype "image/")).length = 0
    · rw [if_pos hg] at h
      simp [Prod.ext_iff] at h
    · rw [if_neg hg] at h
      simp only [Prod.mk.injEq, Resp.ok.injEq] at h
      exact ⟨h.1.symm, h.2.symm⟩

theorem filterOk_add_filterNot (l : List ItemResult) :
    (l.filter (fun r => r.isOk)).length + (l.filter (fun r => ! r.isOk)).length
      = l.length := by
  induction l with
  | nil => rfl
  | cons a l ih =>
    rcases ha : a.isOk with _ | _ <;> simp [List.filter_cons, ha] <;> omega

theorem runPairs_length (O : Oracle) (lid : Nat) (imgs : List UFile) :
    ∀ (pairs : List (UFile × Option UFile)) (i : Nat) (st : St),
      (runPairs O lid imgs i st pairs).1.length = pairs.length
  | [], _, _ => rfl
  | (a, m) :: rest, i, st => by
    simp [runPairs, runPairs_length O lid imgs rest (i + 1)]

/-- Claim C9: a batch with zero audio files or zero image files is
rejected before any pair is processed: the response is a single error,
and neither the flashcards table nor the blob store changes — no
per-item entry and no record is produced (not even unmatched-audio
failures). -/
theorem C9_empty_category_rejected (O : Oracle) (lessonId : Nat)
    (files : List UFile) (st : St)
    (h : (files.filter (fun f => strStartsWith f.mimetype "audio/")).length = 0 ∨
         (files.filter (fun f => strStartsWith f.mimetype "image/")).length = 0) :
    (∃ msg, (bulkUpload O lessonId files st).1 = .badRequest msg) ∧
    (bulkUpload O lessonId files st).2.db = st.db ∧
    (bulkUpload O lessonId files st).2.store = st.store := by
  unfold bulkUpload
  by_cases hf : files.length = 0
  · rw [if_pos hf]
    exact ⟨⟨_, rfl⟩, rfl, rfl⟩
  · rw [if_neg hf, if_pos h]
    exact ⟨⟨_, rfl⟩, rfl, rfl⟩

theorem C9_witness :
    (∃ msg, (bulkUpload oracle0 7 [audioU "a.mp3"] (st0 fsA)).1 = .badRequest msg) ∧
    (bulkUpload oracle0 7 [audioU "a.mp3"] (st0 fsA)).2.db = (st0 fsA).db ∧
    (bulkUpload oracle0 7 [audioU "a.mp3"] (st0 fsA)).2.store = (st0 fsA).store :=
  C9_empty_category_rejected oracle0 7 [audioU "a.mp3"] (st0 fsA) (Or.inr (by decide))

/-- Claim C5: whenever the bulk-upload returns a report,
`successful + failed = total`, `total` is the number of report items, and
`total` counts every uploaded audio file (matched pairs plus
unmatched-audio entries); every item is by construction exactly one of a
success entry or a failure entry. -/
theorem C5_report_counts (O : Oracle) (lessonId : Nat) (files : List UFile)
    (st : St) (report : Report) (st' : St)
    (h : bulkUpload O lessonId files st = (.ok report, st')) :
    report.successful + report.failed = report.total ∧
    report.total = report.results.length ∧
    report.total = (files.filter (fun f => strStartsWith f.mimetype "audio/")).length := by
  obtain ⟨rfl, -⟩ := bulkUpload_ok_inv O lessonId files st report st' h
  refine ⟨?_, ?_, ?_⟩
  · simp only [filterOk_add_filterNot, runPairs_length]
  · simp only [runPairs_length]
  · simp [matchedPairsOf]

theorem bulkUploadCat_eq :
    bulkUpload oracle0 7 filesCat (st0 fsCat) =
      (.ok reportCat, (bulkUpload oracle0 7 filesCat (st0 fsCat)).2) :=
  Prod.ext (by decide) rfl

theorem C5_witness :
    reportCat.successful + reportCat.failed = reportCat.total ∧
    reportCat.total = reportCat.results.length ∧
    reportCat.total = (filesCat.filter (fun f => strStartsWith f.mimetype "audio/")).length :=
  C5_report_counts oracle0 7 filesCat (st0 fsCat) reportCat _ bulkUploadCat_eq

theorem matchedPairsOf_get (audioFiles imageFiles : List UFile) (k : Nat)
    (a : UFile) (h : audioFiles[k]? = some a) :
    (matchedPairsOf audioFiles imageFiles)[k]? =
      some (a, imageFiles.find?
        (fun im => baseNameOf im.originalname == baseNameOf a.originalname)) := by
  simp [matchedPairsOf, List.getElem?_map, h]

theorem runPairs_get_unmatched (O : Oracle) (lid : Nat) (imgs : List UFile) :
    ∀ (pairs : List (UFile × Option UFile)) (i : Nat) (st : St) (k : Nat) (a : UFile),
      pairs[k]? = some (a, none) →
      (runPairs O lid imgs i st pairs).1[k]? =
        some (.fail (basenameFull a.originalname)
          "No matching image found for audio file.")
  | [], _, _, k, a, h => by simp at h
  | (b, m) :: rest, i, st, 0, a, h => by
    simp only [List.getElem?_cons_zero, Option.some.injEq, Prod.mk.injEq] at h
    obtain ⟨rfl, rfl⟩ := h
    simp [runPairs, processPair]
  | (b, m) :: rest, i, st, k + 1, a, h => by
    simp only [List.getElem?_cons_succ] at h
    simpa [runPairs] using
      runPairs_get_unmatched O lid imgs rest (i + 1)
        (processPair O lid imgs i st b m).2 k a h

/-- Claim C8: an audio file whose base name matches no uploaded image
always yields a failure entry "No matching image found for audio file."
at its own position in the report, and the report has one entry per
audio file — unmatched audio is never dropped and never aborts the
processing of the other pairs. -/
theorem C8_unmatched_audio_reported (O : Oracle) (lessonId : Nat)
    (files : List UFile) (st : St) (report : Report) (st' : St)
    (h : bulkUpload O lessonId files st = (.ok report, st'))
    (k : Nat) (a : UFile)
    (ha : (files.filter (fun f => strStartsWith f.mimetype "audio/"))[k]? = some a)
    (hn : ∀ im ∈ files.filter (fun f => strStartsWith f.mimetype "image/"),
      baseNameOf im.originalname ≠ baseNameOf a.originalname) :
    report.results[k]? =
      some (.fail (basenameFull a.originalname)
        "No matching image found for audio file.") ∧
    report.results.length =
      (files.filter (fun f => strStartsWith f.mimetype "audio/")).length := by
  obtain ⟨rfl, -⟩ := bulkUpload_ok_inv O lessonId files st report st' h
  have hfind : (files.filter (fun f => strStartsWith f.mimetype "image/")).find?
      (fun im => baseNameOf im.originalname == baseNameOf a.originalname) = none := by
    rw [List.find?_eq_none]
    intro im him
    simpa using hn im him
  have hpair := matchedPairsOf_get
    (files.filter (fun f => strStartsWith f.mimetype "audio/"))
    (files.filter (fun f => strStartsWith f.mimetype "image/")) k a ha
  rw [hfind] at hpair
  refine ⟨?_, ?_⟩
  · exact runPairs_get_unmatched O lessonId _ _ 0 _ k a hpair
  · simp [runPairs_length, matchedPairsOf]

theorem bulkUploadB_eq :
    bulkUpload oracle0 7 filesB (st0 fsB) =
      (.ok { total := 1, successful := 0, failed := 1,
             results := [.fail "b.mp3" "No matching image found for audio file."] },
       (bulkUpload oracle0 7 filesB (st0 fsB)).2) :=
  Prod.ext (by decide) rfl

theorem C8_witness :
    ({ total := 1, successful := 0, failed := 1,
       results := [.fail "b.mp3" "No matching image found for audio file."] :
        Report}).results[0]? =
      some (.fail (basenameFull (audioU "b.mp3").originalname)
        "No matching image found for audio file.") ∧
    ({ total := 1, successful := 0, failed := 1,
       results := [.fail "b.mp3" "No matching image found for audio file."] :
        Report}).results.length =
      (filesB.filter (fun f => strStartsWith f.mimetype "audio/")).length :=
  C8_unmatched_audio_reported oracle0 7 filesB (st0 fsB) _ _ bulkUploadB_eq
    0 (audioU "b.mp3") (by decide) (by decide)

/-- Claim C3: for a matched pair, when fewer than three eligible
distractors are selected, the pair is recorded as a failure with the
insufficient-distractors reason and nothing is inserted or uploaded for
it — in particular the scenario of the single pair `a.mp3`/`a.png`
(the only image being the correct one) fails exactly this way, creating
no record. -/
theorem C3_insufficient_distractors_fail (O : Oracle) (lessonId : Nat)
    (imageFiles : List UFile) (i : Nat) (st : St) (a m : UFile)
    (hlt : (otherImagesFor O i m imageFiles).length < 3) :
    ((processPair O lessonId imageFiles i st a (some m)).1 =
      .fail (basenameFull a.originalname)
        "Not enough different images for choices" ∧
     (processPair O lessonId imageFiles i st a (some m)).2.db = st.db ∧
     (processPair O lessonId imageFiles i st a (some m)).2.store = st.store) ∧
    (bulkUpload oracle0 7 filesA (st0 fsA)).1 =
      .ok { total := 1, successful := 0, failed := 1,
            results := [.fail "a.mp3" "Not enough different images for choices"] } ∧
    (bulkUpload oracle0 7 filesA (st0 fsA)).2.db = [] := by
  refine ⟨?_, by decide, by decide⟩
  simp only [processPair, if_pos hlt]
  exact ⟨trivial, trivial, trivial⟩

theorem C3_witness :
    (otherImagesFor oracle0 0 (imageU "a.png") [imageU "a.png"]).length < 3 ∧
    (processPair oracle0 7 [imageU "a.png"] 0 (st0 fsA) (audioU "a.mp3")
      (some (imageU "a.png"))).1 =
      .fail "a.mp3" "Not enough different images for choices" := by
  refine ⟨by decide, ?_⟩
  exact ((C3_insufficient_distractors_fail oracle0 7 [imageU "a.png"] 0 (st0 fsA)
    (audioU "a.mp3") (imageU "a.png") (by decide)).1.1).trans (by decide)

theorem processImage_error_none (fs : FS) (p : String) (h : fs p = none) :
    processImage fs p = .error .missingInput := by
  simp [processImage, h]

theorem processImage_error_undec (fs : FS) (p : String) (b : Blob)
    (hb : fs p = some b) (hd : b.isDec = false) :
    processImage fs p = .error .badFormat := by
  simp [processImage, hb, hd]

theorem runPairsRoutes_length (O : Oracle) (lid : Nat) (imgs : List UFile) :
    ∀ (pairs : List (UFile × Option UFile)) (i : Nat) (st : St),
      (runPairsRoutes O lid imgs i st pairs).1.length = pairs.length
  | [], _, _ => rfl
  | (a, m) :: rest, i, st => by
    simp [runPairsRoutes, runPairsRoutes_length O lid imgs rest (i + 1)]

theorem runPairsRoutes_allfail (O : Oracle) (lid : Nat) (imgs : List UFile)
    (st : St)
    (hbad : ∀ m ∈ imgs, ∀ b, st.fs m.path = some b → b.isDec = false) :
    ∀ (pairs : List (UFile × Option UFile)) (i : Nat),
      (∀ a m, (a, some m) ∈ pairs → m ∈ imgs) →
      (runPairsRoutes O lid imgs i st pairs).2 = st ∧
      ∀ r ∈ (runPairsRoutes O lid imgs i st pairs).1, r.isOk = false
  | [], _, _ => ⟨rfl, by intro r hr; cases hr⟩
  | (a, mi) :: rest, i, hp => by
    obtain ⟨msg, hstep⟩ : ∃ msg, processPairRoutes O lid imgs i st a mi =
        (.fail (basenameFull a.originalname) msg, st) := by
      rcases mi with _ | m
      · exact ⟨"No matching image found for audio file.", rfl⟩
      · have hm : m ∈ imgs := hp a m (by simp)
        obtain ⟨e, he⟩ : ∃ e, processImage st.fs m.path = .error e := by
          rcases hfs : st.fs m.path with _ | b
          · exact ⟨_, processImage_error_none st.fs m.path hfs⟩
          · exact ⟨_, processImage_error_undec st.fs m.path b hfs (hbad m hm b hfs)⟩
        refine ⟨e.msg, ?_⟩
        simp [processPairRoutes, he]
    have ih := runPairsRoutes_allfail O lid imgs st hbad rest (i + 1)
      (fun a' m' hm' => hp a' m' (List.mem_cons_of_mem _ hm'))
    simp only [runPairsRoutes, hstep]
    refine ⟨ih.1, ?_⟩
    intro r hr
    simp only [List.mem_cons] at hr
    rcases hr with rfl | hr
    · rfl
    · exact ih.2 r hr

theorem bulkUploadRoutes_ok_inv (O : Oracle) (lessonId : Nat)
    (files : List UFile) (st : St) (report : Report) (st' : St)
    (h : bulkUploadRoutes O lessonId files st = (.ok report, st')) :
    report =
      { total := (matchedPairsOf (files.filter (fun f => strStartsWith f.mimetype "audio/"))
          (files.filter (fun f => strStartsWith f.mimetype "image/"))).length,
        successful := ((runPairsRoutes O lessonId
            (files.filter (fun f => strStartsWith f.mimetype "image/")) 0 st
            (matchedPairsOf (files.filter (fun f => strStartsWith f.mimetype "audio/"))
              (files.filter (fun f => strStartsWith f.mimetype "image/")))).1.filter
            (fun r => r.isOk)).length,
        failed := ((runPairsRoutes O lessonId
            (files.filter (fun f => strStartsWith f.mimetype "image/")) 0 st
            (matchedPairsOf (files.filter (fun f => strStartsWith f.mimetype "audio/"))
              (files.filter (fun f => strStartsWith f.mimetype "image/")))).1.filter
            (fun r => ! r.isOk)).length,
        results := (runPairsRoutes O lessonId
            (files.filter (fun f => strStartsWith f.mimetype "image/")) 0 st
            (matchedPairsOf (files.filter (fun f => strStartsWith f.mimetype "audio/"))
              (files.filter (fun f => strStartsWith f.mimetype "image/")))).1 } ∧
    st' = (runPairsRoutes O lessonId
        (files.filter (fun f => strStartsWith f.mimetype "image/")) 0 st
        (matchedPairsOf (files.filter (fun f => strStartsWith f.mimetype "audio/"))
          (files.filter (fun f => strStartsWith f.mimetype "image/")))).2 := by
  unfold bulkUploadRoutes at h
  by_cases hg : (files.filter (fun f => strStartsWith f.mimetype "audio/")).length = 0 ∨
      (files.filter (fun f => strStartsWith f.mimetype "image/")).length = 0
  · rw [if_pos hg] at h
    simp [Prod.ext_iff] at h
  · rw [if_neg hg] at h
    simp only [Prod.mk.injEq, Resp.ok.injEq] at h
    exact ⟨h.1.symm, h.2.symm⟩

theorem matchedPairsOf_some_mem (audioFiles imageFiles : List UFile)
    (a m : UFile) (h : (a, some m) ∈ matchedPairsOf audioFiles imageFiles) :
    m ∈ imageFiles := by
  simp only [matchedPairsOf, List.mem_map] at h
  obtain ⟨x, -, hx⟩ := h
  have : imageFiles.find?
      (fun imgFile => baseNameOf imgFile.originalname == baseNameOf x.originalname)
      = some m := by
    have := congrArg Prod.snd hx
    simpa using this
  exact List.mem_of_find?_eq_some this

/-- Claim C2: in the routes.ts bulk-upload handler, an image-processing
failure on a pair's correct image or on any selected distractor turns
exactly that pair into a failure entry, leaving the flashcards table and
blob store untouched for it, while other pairs continue; consequently a
batch whose images all fail to decode yields a report with zero
successes, `failed = total`, and no change to the flashcards table or
store. -/
theorem C2_processing_failure_isolated (O : Oracle) (lessonId : Nat) :
    (∀ (imgs : List UFile) (i : Nat) (st : St) (a m : UFile) (e : PErr),
      processImage st.fs m.path = .error e →
      processPairRoutes O lessonId imgs i st a (some m) =
        (.fail (basenameFull a.originalname) e.msg, st)) ∧
    (∀ (imgs : List UFile) (i : Nat) (st : St) (a m : UFile) (fs1 : FS) (e : PErr),
      processImage st.fs m.path = .ok fs1 →
      (processAllRoutes ((O.shuffle i (imgs.filter (fun img => img != m))).take 3)
        fs1).2 = some e →
      (processPairRoutes O lessonId imgs i st a (some m)).1 =
        .fail (basenameFull a.originalname) e.msg ∧
      (processPairRoutes O lessonId imgs i st a (some m)).2.db = st.db ∧
      (processPairRoutes O lessonId imgs i st a (some m)).2.store = st.store) ∧
    (∀ (files : List UFile) (st : St) (report : Report) (st' : St),
      (∀ m ∈ files.filter (fun f => strStartsWith f.mimetype "image/"),
        ∀ b, st.fs m.path = some b → b.isDec = false) →
      bulkUploadRoutes O lessonId files st = (.ok report, st') →
      report.successful = 0 ∧ report.failed = report.total ∧
      st'.db = st.db ∧ st'.store = st.store) := by
  refine ⟨?_, ?_, ?_⟩
  · intro imgs i st a m e he
    simp [processPairRoutes, he]
  · intro imgs i st a m fs1 e hok hall
    simp only [processPairRoutes, hok, hall]
    exact ⟨trivial, trivial, trivial⟩
  · intro files st report st' hbad h
    obtain ⟨rfl, rfl⟩ := bulkUploadRoutes_ok_inv O lessonId files st report st' h
    have hall := runPairsRoutes_allfail O lessonId
      (files.filter (fun f => strStartsWith f.mimetype "image/")) st hbad
      (matchedPairsOf (files.filter (fun f => strStartsWith f.mimetype "audio/"))
        (files.filter (fun f => strStartsWith f.mimetype "image/"))) 0
      (fun a m hm => matchedPairsOf_some_mem _ _ a m hm)
    refine ⟨?_, ?_, ?_, ?_⟩
    · simp only [List.length_eq_zero]
      rw [List.filter_eq_nil_iff]
      intro r hr
      simp [hall.2 r hr]
    · have hfe : (runPairsRoutes O lessonId
          (files.filter (fun f => strStartsWith f.mimetype "image/")) 0 st
          (matchedPairsOf (files.filter (fun f => strStartsWith f.mimetype "audio/"))
            (files.filter (fun f => strStartsWith f.mimetype "image/")))).1.filter
          (fun r => ! r.isOk) = (runPairsRoutes O lessonId
          (files.filter (fun f => strStartsWith f.mimetype "image/")) 0 st
          (matchedPairsOf (files.filter (fun f => strStartsWith f.mimetype "audio/"))
            (files.filter (fun f => strStartsWith f.mimetype "image/")))).1 := by
        rw [List.filter_eq_self]
        intro r hr
        simp [hall.2 r hr]
      rw [hfe, runPairsRoutes_length]
    · rw [hall.1]
    · rw [hall.1]

theorem C2_witness :
    (∀ m ∈ [audioU "a.mp3", imageU "a.png"].filter
        (fun f => strStartsWith f.mimetype "image/"),
      ∀ b, (st0 fsABad).fs m.path = some b → b.isDec = false) ∧
    (bulkUploadRoutes oracle0 7 [audioU "a.mp3", imageU "a.png"] (st0 fsABad)).2.db
        = (st0 fsABad).db ∧
    reportBad.successful = 0 ∧ reportBad.failed = reportBad.total := by
  have hbad : ∀ m ∈ [audioU "a.mp3", imageU "a.png"].filter
      (fun f => strStartsWith f.mimetype "image/"),
      ∀ b, (st0 fsABad).fs m.path = some b → b.isDec = false := by
    intro m hm b hb
    have hflt : [audioU "a.mp3", imageU "a.png"].filter
        (fun f => strStartsWith f.mimetype "image/") = [imageU "a.png"] := by decide
    rw [hflt, List.mem_singleton] at hm
    subst hm
    have hb2 : some (Blob.file 1 (some 100) (some 100) false) = some b := hb
    cases hb2
    rfl
  have heq : bulkUploadRoutes oracle0 7 [audioU "a.mp3", imageU "a.png"] (st0 fsABad) =
      (Resp.ok reportBad,
       (bulkUploadRoutes oracle0 7 [audioU "a.mp3", imageU "a.png"] (st0 fsABad)).2) :=
    Prod.ext (by decide) rfl
  have h := (C2_processing_failure_isolated oracle0 7).2.2
    [audioU "a.mp3", imageU "a.png"] (st0 fsABad) _ _ hbad heq
  exact ⟨hbad, h.2.2.1, h.1, h.2.1⟩

/-- Claim C1 counterexample: in the cat/dog demo batch, `dog.png` and
`bird.png` are selected as distractors of the `cat.mp3` card, yet both
remain in the eligible pool of the `dog.mp3` card — the used-image set
is recreated for every pair, so nothing used on one card is excluded
from another card's pool — and `bird.png` is selected again for the
second card.  The second card then fails with a storage error (its
files were deleted by the first card's uploads), not with the
insufficient-distractors reason. -/
theorem C1_counterexample :
    (otherImagesFor oracle0 0 (imageU "cat.png") imagesCat).map (·.originalname)
      = ["dog.png", "bird.png", "fish.png"] ∧
    (availableImagesFor (imageU "dog.png") imagesCat).map (·.originalname)
      = ["cat.png", "bird.png", "fish.png", "tree.png"] ∧
    (otherImagesFor oracle0 1 (imageU "dog.png") imagesCat).map (·.originalname)
      = ["cat.png", "bird.png", "fish.png"] ∧
    (imageU "bird.png" ∈ otherImagesFor oracle0 0 (imageU "cat.png") imagesCat ∧
     imageU "bird.png" ∈ availableImagesFor (imageU "dog.png") imagesCat ∧
     imageU "bird.png" ∈ otherImagesFor oracle0 1 (imageU "dog.png") imagesCat) ∧
    (bulkUpload oracle0 7 filesCat (st0 fsCat)).1 = .ok reportCat ∧
    reportCat.results[1]? =
      some (.fail "dog.mp3" "ENOENT: no such file or directory") := by
  refine ⟨by decide, by decide, by decide, ⟨by decide, by decide, by decide⟩,
    by decide, by decide⟩

/-- Claim C4 counterexample: the part_014 bulk-import handler, on the
batch `a.mp3`/`a.png`/`b.png` with random index 3, successfully creates
a flashcard whose `imageChoices` has only two entries while
`correctImageIndex` is 3 — an out-of-range index, with the matched
image's reference at position 1, not 3 (`splice` clamps the insertion
position but the stored index is not clamped). -/
theorem C4_counterexample :
    (bulkImport oracle3 "L" filesAB (stI0 fsAB)).2.db =
      [{ lessonId := 1, audioUrl := .lessonAudio 1 "a.mp3",
         imageChoices := [some (.lessonImg 1 "b.png"), some (.lessonImg 1 "a.png")],
         correctImageIndex := 3 }] ∧
    (bulkImport oracle3 "L" filesAB (stI0 fsAB)).1 =
      .ok 1 [.ok "a.mp3"
        { lessonId := 1, audioUrl := .lessonAudio 1 "a.mp3",
          imageChoices := [some (.lessonImg 1 "b.png"), some (.lessonImg 1 "a.png")],
          correctImageIndex := 3 }] ∧
    ∀ f ∈ (bulkImport oracle3 "L" filesAB (stI0 fsAB)).2.db,
      ¬ (f.correctImageIndex < f.imageChoices.length) ∧
      f.imageChoices[f.correctImageIndex]? = none := by
  refine ⟨by decide, by decide, by decide⟩

theorem srcStable_refl (fs : FS) : SrcStable fs fs :=
  fun _ b' h => ⟨b', h, rfl⟩

theorem srcStable_trans {a b c : FS} (h1 : SrcStable a b) (h2 : SrcStable b c) :
    SrcStable a c := by
  intro p b' hp
  obtain ⟨bb, hbb, e2⟩ := h2 p b' hp
  obtain ⟨ba, hba, e1⟩ := h1 p bb hbb
  exact ⟨ba, hba, e2.trans e1⟩

theorem srcStable_erase (fs : FS) (p : String) : SrcStable fs (fs.erase p) := by
  intro q b' hq
  by_cases hqp : q = p
  · subst hqp
    simp [Map.erase_self] at hq
  · rw [Map.erase_ne _ hqp] at hq
    exact ⟨b', hq, rfl⟩

theorem inj_of_srcStable {fs fs' : FS} (hs : SrcStable fs fs') (hi : Inj fs) :
    Inj fs' := by
  intro p q b c hp hq he
  obtain ⟨bp, hbp, ep⟩ := hs p b hp
  obtain ⟨bq, hbq, eq'⟩ := hs q c hq
  exact hi p q bp bq hbp hbq (by rw [← ep, ← eq', he])

theorem hasSrc_mono {fs fs' : FS} (hs : SrcStable fs fs') {s : Nat}
    (h : HasSrc fs' s) : HasSrc fs s := by
  obtain ⟨p, b, hp, hb⟩ := h
  obtain ⟨b0, hb0, e⟩ := hs p b hp
  exact ⟨p, b0, hb0, by rw [← e, hb]⟩

theorem processAttempt_srcStable (O : Oracle) (fs : FS) (k : Nat) (p : String) :
    SrcStable fs (processAttempt O fs k p).2 := by
  by_cases htr : O.trans k
  · simp only [processAttempt, htr, if_true]
    exact srcStable_refl fs
  · rcases hfs : fs p with _ | b
    · simp only [processAttempt, htr, hfs, if_false]
      exact srcStable_refl fs
    · by_cases hd : b.isDec
      · by_cases hc : jsCond b.dims
        · have hres : (processAttempt O fs k p).2 =
              (((fs.update (p ++ "_resized") (resize500 b (! O.corrupt k))).erase p).erase
                (p ++ "_resized")).update p (resize500 b (! O.corrupt k)) := by
            by_cases hco : (resize500 b (! O.corrupt k)).isDec <;>
              simp [processAttempt, htr, hfs, hd, hc, hco]
          rw [hres]
          intro q b' hq
          by_cases hqp : q = p
          · subst hqp
            rw [Map.update_self] at hq
            cases hq
            exact ⟨b, hfs, by simp [resize500, Blob.srcId]⟩
          · rw [Map.update_ne _ _ hqp] at hq
            by_cases hqr : q = p ++ "_resized"
            · subst hqr
              simp [Map.erase_self] at hq
            · rw [Map.erase_ne _ hqr, Map.erase_ne _ hqp, Map.update_ne _ _ hqr] at hq
              exact ⟨b', hq, rfl⟩
        · simp only [processAttempt, htr, hfs, hd, hc]
          simp
          exact srcStable_refl fs
      · simp only [processAttempt, htr, hfs]
        simp [hd]
        exact srcStable_refl fs

theorem processImageGo_srcStable (O : Oracle) :
    ∀ (fuel : Nat) (fs : FS) (clock : Nat) (p : String),
      SrcStable fs (processImageGo O fuel fs clock p).2.1
  | 0, fs, clock, p => srcStable_refl fs
  | fuel + 1, fs, clock, p => by
    rcases ha : processAttempt O fs clock p with ⟨ok, fs'⟩
    have hstep : SrcStable fs fs' := by
      have := processAttempt_srcStable O fs clock p
      rwa [ha] at this
    by_cases hok : ok = true
    · subst hok
      simpa [processImageGo, ha] using hstep
    · have hok' : ok = false := by simpa using hok
      subst hok'
      by_cases hf : fuel = 0
      · subst hf
        simpa [processImageGo, ha] using hstep
      · have ih := processImageGo_srcStable O fuel fs' (clock + 1) p
        simp only [processImageGo, ha, hf]
        norm_num [hf]
        exact srcStable_trans hstep ih

theorem processImageRetry_srcStable (O : Oracle) (fs : FS) (clock : Nat)
    (p : String) : SrcStable fs (processImageRetry O fs clock p).2.1 :=
  processImageGo_srcStable O 3 fs clock p

theorem processList_srcStable (O : Oracle) :
    ∀ (files : List UFile) (fs : FS) (clock : Nat),
      SrcStable fs (processList O files fs clock).1
  | [], fs, clock => srcStable_refl fs
  | f :: rest, fs, clock => by
    have h1 := processImageRetry_srcStable O fs clock f.path
    have h2 := processList_srcStable O rest
      (processImageRetry O fs clock f.path).2.1
      (processImageRetry O fs clock f.path).2.2
    simpa [processList] using srcStable_trans h1 h2

theorem uploadFile_ok_inv {κ : Type} [DecidableEq κ] (fs : FS) (store : Store κ)
    (p : String) (k : κ) (fs' : FS) (store' : Store κ) (url : κ)
    (h : uploadFile fs store p k = .ok (fs', store', url)) :
    ∃ b, fs p = some b ∧ fs' = fs.erase p ∧ store' = store.update k b ∧ url = k := by
  rcases hfs : fs p with _ | b
  · simp [uploadFile, hfs] at h
  · simp only [uploadFile, hfs, Except.ok.injEq, Prod.mk.injEq] at h
    exact ⟨b, rfl, h.1.symm, h.2.1.symm, h.2.2.symm⟩

theorem uploadFile_error_inv {κ : Type} [DecidableEq κ] (fs : FS) (store : Store κ)
    (p : String) (k : κ) (e : UErr)
    (h : uploadFile fs store p k = .error e) : fs p = none := by
  rcases hfs : fs p with _ | b
  · rfl
  · simp [uploadFile, hfs] at h

theorem collectRefs_ok_cons (x : Except UErr Ref) (rs : List (Except UErr Ref))
    (refs : List Ref) (h : collectRefs (x :: rs) = .ok refs) :
    ∃ r rest, x = .ok r ∧ refs = r :: rest ∧ collectRefs rs = .ok rest := by
  rcases x with e | r
  · simp [collectRefs] at h
  · rcases hr : collectRefs rs with e' | rest
    · simp [collectRefs, hr, Except.map] at h
    · refine ⟨r, rest, rfl, ?_, rfl⟩
      simp only [collectRefs, hr, Except.map] at h
      simpa using h.symm

/-- Everything `uploadMany` changes in the store sits at fresh `img`
keys with counter at least `u`. -/
theorem uploadMany_store_pres :
    ∀ (files : List UFile) (fs : FS) (store : Store Ref) (u : Nat) (r : Ref),
      (uploadMany fs store u files).2.2.1 r = store r ∨
        ∃ n e, r = Ref.img n e ∧ u ≤ n
  | [], fs, store, u, r => Or.inl rfl
  | f :: rest, fs, store, u, r => by
    rcases hup : uploadFile fs store f.path (Ref.img u (extnameOf f.originalname))
      with e | ⟨fs1, store1, r1⟩
    · rcases uploadMany_store_pres rest fs store (u + 1) r with hsame | ⟨n, e', rfl, hn⟩
      · simp only [uploadMany, hup]
        exact Or.inl hsame
      · exact Or.inr ⟨n, e', rfl, by omega⟩
    · obtain ⟨b, hb, rfl, rfl, rfl⟩ := uploadFile_ok_inv fs store f.path _ _ _ _ hup
      rcases uploadMany_store_pres rest (fs.erase f.path)
          (store.update (Ref.img u (extnameOf f.originalname)) b) (u + 1) r with
        hsame | ⟨n, e', rfl, hn⟩
      · simp only [uploadMany, hup]
        rw [hsame]
        by_cases hr : r = Ref.img u (extnameOf f.originalname)
        · exact Or.inr ⟨u, extnameOf f.originalname, hr, le_refl u⟩
        · exact Or.inl (Map.update_ne _ _ hr)
      · exact Or.inr ⟨n, e', rfl, by omega⟩

theorem uploadMany_srcStable :
    ∀ (files : List UFile) (fs : FS) (store : Store Ref) (u : Nat),
      SrcStable fs (uploadMany fs store u files).2.1
  | [], fs, store, u => srcStable_refl fs
  | f :: rest, fs, store, u => by
    rcases hup : uploadFile fs store f.path (Ref.img u (extnameOf f.originalname))
      with e | ⟨fs1, store1, r1⟩
    · simpa [uploadMany, hup] using uploadMany_srcStable rest fs store (u + 1)
    · obtain ⟨b, hb, rfl, rfl, rfl⟩ := uploadFile_ok_inv fs store f.path _ _ _ _ hup
      simpa [uploadMany, hup] using
        srcStable_trans (srcStable_erase fs f.path)
          (uploadMany_srcStable rest (fs.erase f.path)
            (store.update (Ref.img u (extnameOf f.originalname)) b) (u + 1))

theorem uploadMany_uuid :
    ∀ (files : List UFile) (fs : FS) (store : Store Ref) (u : Nat),
      (uploadMany fs store u files).2.2.2 = u + files.length
  | [], fs, store, u => by simp [uploadMany]
  | f :: rest, fs, store, u => by
    rcases hup : uploadFile fs store f.path (Ref.img u (extnameOf f.originalname))
      with e | ⟨fs1, store1, r1⟩
    · simp only [uploadMany, hup]
      rw [uploadMany_uuid rest fs store (u + 1)]
      simp
      omega
    · obtain ⟨b, hb, rfl, rfl, rfl⟩ := uploadFile_ok_inv fs store f.path _ _ _ _ hup
      simp only [uploadMany, hup]
      rw [uploadMany_uuid rest]
      simp
      omega

theorem not_hasSrc_erase_of_inj {fs : FS} (hi : Inj fs) {p : String} {b : Blob}
    (hb : fs p = some b) : ¬ HasSrc (fs.erase p) b.srcId := by
  rintro ⟨q, c, hq, he⟩
  by_cases hqp : q = p
  · subst hqp
    simp [Map.erase_self] at hq
  · rw [Map.erase_ne _ hqp] at hq
    exact hqp (hi q p c b hq hb he)

theorem uploadMany_cons_ok (f : UFile) (files : List UFile) (fs : FS)
    (store : Store Ref) (u : Nat) (refs : List Ref)
    (h : collectRefs (uploadMany fs store u (f :: files)).1 = .ok refs) :
    ∃ b rest,
      fs f.path = some b ∧
      refs = Ref.img u (extnameOf f.originalname) :: rest ∧
      collectRefs (uploadMany (fs.erase f.path)
        (store.update (Ref.img u (extnameOf f.originalname)) b)
        (u + 1) files).1 = .ok rest ∧
      (uploadMany fs store u (f :: files)).2 =
        (uploadMany (fs.erase f.path)
          (store.update (Ref.img u (extnameOf f.originalname)) b)
          (u + 1) files).2 := by
  rcases hup : uploadFile fs store f.path (Ref.img u (extnameOf f.originalname))
    with e | ⟨fs1, store1, r1⟩
  · have h1 : (uploadMany fs store u (f :: files)).1 =
        .error e :: (uploadMany fs store (u + 1) files).1 := by
      simp [uploadMany, hup]
    rw [h1] at h
    simp [collectRefs] at h
  · obtain ⟨b, hb, rfl, rfl, rfl⟩ := uploadFile_ok_inv _ _ _ _ _ _ _ hup
    have h1 : (uploadMany fs store u (f :: files)).1 =
        .ok (Ref.img u (extnameOf f.originalname)) ::
          (uploadMany (fs.erase f.path)
            (store.update (Ref.img u (extnameOf f.originalname)) b)
            (u + 1) files).1 := by
      simp [uploadMany, hup]
    rw [h1] at h
    obtain ⟨r, rest, hr, hrefs, hrest⟩ := collectRefs_ok_cons _ _ _ h
    obtain rfl : Ref.img u (extnameOf f.originalname) = r := by
      simpa using hr
    refine ⟨b, rest, hb, hrefs, hrest, ?_⟩
    simp [uploadMany, hup]

theorem uploadMany_ok_spec :
    ∀ (files : List UFile) (fs : FS) (store : Store Ref) (u : Nat)
      (refs : List Ref), Inj fs →
      collectRefs (uploadMany fs store u files).1 = .ok refs →
      (∀ r ∈ refs, ∃ n e, r = Ref.img n e ∧ u ≤ n ∧ n < u + files.length) ∧
      (∀ r ∈ refs, ∃ b, (uploadMany fs store u files).2.2.1 r = some b ∧
        ¬ HasSrc (uploadMany fs store u files).2.1 b.srcId ∧ HasSrc fs b.srcId) ∧
      List.Pairwise (fun r1 r2 => ∀ b1 b2,
        (uploadMany fs store u files).2.2.1 r1 = some b1 →
        (uploadMany fs store u files).2.2.1 r2 = some b2 →
        b1.srcId ≠ b2.srcId) refs ∧
      Inj (uploadMany fs store u files).2.1 ∧
      (∀ r0 rest0, refs = r0 :: rest0 → ∃ f0 fr, files = f0 :: fr ∧
        r0 = Ref.img u (extnameOf f0.originalname) ∧
        ∃ b0, fs f0.path = some b0 ∧
          (uploadMany fs store u files).2.2.1 r0 = some b0)
  | [], fs, store, u, refs, hinj, h => by
    obtain rfl : refs = [] := by
      have : collectRefs (uploadMany fs store u []).1 = .ok [] := rfl
      rw [this] at h
      simpa using h.symm
    refine ⟨by simp, by simp, by simp, hinj, ?_⟩
    intro r0 rest0 he
    cases he
  | f :: files, fs, store, u, refs, hinj, h => by
    obtain ⟨b, rest, hb, rfl, hrest, hst⟩ := uploadMany_cons_ok f files fs store u refs h
    set ref0 := Ref.img u (extnameOf f.originalname) with href0
    set fs1 := fs.erase f.path with hfs1
    set store1 := store.update ref0 b with hstore1
    have hinj1 : Inj fs1 := inj_of_srcStable (srcStable_erase fs f.path) hinj
    have ih := uploadMany_ok_spec files fs1 store1 (u + 1) rest hinj1 hrest
    have hnot : ¬ HasSrc fs1 b.srcId := not_hasSrc_erase_of_inj hinj hb
    have hfinal_fs : (uploadMany fs store u (f :: files)).2.1 =
        (uploadMany fs1 store1 (u + 1) files).2.1 := by
      rw [hst]
    have hfinal_store : (uploadMany fs store u (f :: files)).2.2.1 =
        (uploadMany fs1 store1 (u + 1) files).2.2.1 := by
      rw [hst]
    have hstore_ref0 : (uploadMany fs1 store1 (u + 1) files).2.2.1 ref0 = some b := by
      rcases uploadMany_store_pres files fs1 store1 (u + 1) ref0 with hsame | ⟨n, e, hne, hn⟩
      · rw [hsame, hstore1, Map.update_self]
      · rw [href0] at hne
        have : n = u := by
          cases hne
          rfl
        omega
    have hnot_final : ¬ HasSrc (uploadMany fs1 store1 (u + 1) files).2.1 b.srcId :=
      fun hcon => hnot (hasSrc_mono (uploadMany_srcStable files fs1 store1 (u + 1)) hcon)
    refine ⟨?_, ?_, ?_, ?_, ?_⟩
    · intro r hr
      rcases List.mem_cons.mp hr with rfl | hr
      · exact ⟨u, extnameOf f.originalname, rfl, le_refl u, by simp⟩
      · obtain ⟨n, e, rfl, hn1, hn2⟩ := ih.1 r hr
        exact ⟨n, e, rfl, by omega, by simp at hn2 ⊢; omega⟩
    · intro r hr
      rcases List.mem_cons.mp hr with rfl | hr
      · rw [hfinal_store, hfinal_fs]
        exact ⟨b, hstore_ref0, hnot_final, ⟨f.path, b, hb, rfl⟩⟩
      · obtain ⟨b', hb', hn', hs'⟩ := ih.2.1 r hr
        rw [hfinal_store, hfinal_fs]
        exact ⟨b', hb', hn', hasSrc_mono (srcStable_erase fs f.path) hs'⟩
    · rw [List.pairwise_cons]
      constructor
      · intro r2 hr2 b1 b2 h1 h2
        rw [hfinal_store] at h1 h2
        rw [hstore_ref0] at h1
        cases h1
        obtain ⟨b2', hb2', -, hs2'⟩ := ih.2.1 r2 hr2
        rw [hb2'] at h2
        cases h2
        intro hcon
        rw [hcon] at hnot
        exact hnot hs2'
      · have hp := ih.2.2.1
        refine List.Pairwise.imp_of_mem ?_ hp
        intro r1 r2 _ _ hr b1 b2 h1 h2
        rw [hfinal_store] at h1 h2
        exact hr b1 b2 h1 h2
    · rw [hfinal_fs]
      exact ih.2.2.2.1
    · intro r0 rest0 he
      obtain ⟨rfl, -⟩ : ref0 = r0 ∧ rest = rest0 := by
        constructor
        · exact (List.cons.injEq .. ▸ he).1
        · exact (List.cons.injEq .. ▸ he).2
      refine ⟨f, files, rfl, rfl, b, hb, ?_⟩
      rw [hfinal_store]
      exact hstore_ref0

theorem evolves_refl (s : St) : Evolves s s :=
  ⟨srcStable_refl s.fs, le_refl _, fun _ _ _ => rfl⟩

theorem evolves_trans {s t v : St} (h1 : Evolves s t) (h2 : Evolves t v) :
    Evolves s v :=
  ⟨srcStable_trans h1.1 h2.1, le_trans h1.2.1 h2.2.1,
   fun n e hn => (h2.2.2 n e (lt_of_lt_of_le hn h1.2.1)).trans (h1.2.2 n e hn)⟩

theorem jsSwap_mem (l : List Ref) (i : Nat) (r : Ref)
    (h : some r ∈ jsSwap l i) : r ∈ l := by
  have hmem_set : ∀ (s : List (Option Ref)) (j : Nat) (v x : Option Ref),
      x ∈ s.set j v → x ∈ s ∨ x = v := fun s j v x hx =>
    List.mem_or_eq_of_mem_set hx
  have hsome : ∀ x ∈ l.map some, ∀ rr : Ref, x = some rr → rr ∈ l := by
    intro x hx rr hrr
    subst hrr
    simpa using hx
  have hv : ∀ j : Nat, some r = (l.map some).getD j none → r ∈ l := by
    intro j hj
    by_cases hjl : j < (l.map some).length
    · rw [List.getD_eq_getElem _ _ hjl] at hj
      exact hsome _ (hj ▸ List.getElem_mem hjl) r rfl
    · rw [List.getD_eq_default _ _ (le_of_not_lt hjl)] at hj
      cases hj
  unfold jsSwap at h
  by_cases hlen : i < (l.map some).length
  · rw [if_pos hlen] at h
    rcases hmem_set _ _ _ _ h with h1 | h1
    · rcases hmem_set _ _ _ _ h1 with h2 | h2
      · exact hsome _ h2 r rfl
      · exact hv i h2
    · exact hv 0 h1
  · rw [if_neg hlen] at h
    rcases List.mem_append.mp h with h1 | h1
    · rcases List.mem_append.mp h1 with h2 | h2
      · rcases hmem_set _ _ _ _ h2 with h3 | h3
        · exact hsome _ h3 r rfl
        · exact hv i h3
      · rw [List.mem_replicate] at h2
        cases h2.2
    · rw [List.mem_singleton] at h1
      exact hv 0 h1

theorem evolves_store_audio (st : St) (u : Nat) (ea : String) (b : Blob)
    (n : Nat) (e : String) :
    (st.store.update (Ref.audio u ea) b) (Ref.img n e) = st.store (Ref.img n e) :=
  Map.update_ne _ _ (by intro h; cases h)

theorem processPair_spec (O : Oracle) (lid : Nat) (imgs : List UFile) (i : Nat)
    (st : St) (a : UFile) (mi : Option UFile) :
    Evolves st (processPair O lid imgs i st a mi).2 ∧
    (Inj st.fs → Inj (processPair O lid imgs i st a mi).2.fs) ∧
    ((processPair O lid imgs i st a mi).2.db = st.db ∨
      ∃ fc, (processPair O lid imgs i st a mi).2.db = st.db ++ [fc] ∧
        (processPair O lid imgs i st a mi).1 = .ok (basenameFull a.originalname) fc ∧
        (Inj st.fs → NewRec st (processPair O lid imgs i st a mi).2 fc)) := by
  rcases mi with _ | m
  · exact ⟨evolves_refl st, fun h => h, Or.inl rfl⟩
  have hpm : SrcStable st.fs (processImageRetry O st.fs st.clock m.path).2.1 :=
    processImageRetry_srcStable O st.fs st.clock m.path
  have hpl : SrcStable (processImageRetry O st.fs st.clock m.path).2.1
      (processList O (otherImagesFor O i m imgs)
        (processImageRetry O st.fs st.clock m.path).2.1
        (processImageRetry O st.fs st.clock m.path).2.2).1 :=
    processList_srcStable O (otherImagesFor O i m imgs) _ _
  have hpre : SrcStable st.fs (processList O (otherImagesFor O i m imgs)
      (processImageRetry O st.fs st.clock m.path).2.1
      (processImageRetry O st.fs st.clock m.path).2.2).1 :=
    srcStable_trans hpm hpl
  simp only [processPair]
  split
  next hlt =>
    exact ⟨⟨hpm, le_refl _, fun _ _ _ => rfl⟩, fun h => inj_of_srcStable hpm h,
      Or.inl rfl⟩
  next hlt =>
    split
    next e hup =>
      have hfs : uploadFile (processList O (otherImagesFor O i m imgs)
          (processImageRetry O st.fs st.clock m.path).2.1
          (processImageRetry O st.fs st.clock m.path).2.2).1 st.store a.path
          (Ref.audio st.uuid (extnameOf a.originalname)) = .error e := hup
      exact ⟨⟨hpre, Nat.le_succ _, fun _ _ _ => rfl⟩,
        fun h => inj_of_srcStable hpre h, Or.inl rfl⟩
    next fs3 store3 aurl hup =>
      obtain ⟨ba, hba, rfl, rfl, rfl⟩ := uploadFile_ok_inv _ _ _ _ _ _ _ hup
      set fs2 := (processList O (otherImagesFor O i m imgs)
        (processImageRetry O st.fs st.clock m.path).2.1
        (processImageRetry O st.fs st.clock m.path).2.2).1 with hfs2
      set aref := Ref.audio st.uuid (extnameOf a.originalname) with haref
      set allImages := m :: otherImagesFor O i m imgs with hall
      set um := uploadMany (fs2.erase a.path) (st.store.update aref ba)
        (st.uuid + 1) allImages with hum
      have hfs4 : SrcStable st.fs um.2.1 :=
        srcStable_trans hpre (srcStable_trans (srcStable_erase fs2 a.path)
          (uploadMany_srcStable allImages (fs2.erase a.path)
            (st.store.update aref ba) (st.uuid + 1)))
      have hu4 : um.2.2.2 = st.uuid + 1 + allImages.length := by
        rw [hum]
        exact uploadMany_uuid allImages _ _ _
      have hpres4 : ∀ n e, n < st.uuid →
          um.2.2.1 (Ref.img n e) = st.store (Ref.img n e) := by
        intro n e hn
        rcases uploadMany_store_pres allImages (fs2.erase a.path)
            (st.store.update aref ba) (st.uuid + 1) (Ref.img n e) with hsame | hfresh
        · rw [hum, hsame, haref]
          exact evolves_store_audio st st.uuid (extnameOf a.originalname) ba n e
        · obtain ⟨n', e', hne, hn'⟩ := hfresh
          cases hne
          omega
      split
      next e2 hcol =>
        refine ⟨⟨hfs4, ?_, hpres4⟩, fun h => inj_of_srcStable hfs4 h, Or.inl rfl⟩
        show st.uuid ≤ um.2.2.2
        omega
      next urls hcol =>
        refine ⟨⟨hfs4, ?_, hpres4⟩, fun h => inj_of_srcStable hfs4 h, Or.inr ?_⟩
        · show st.uuid ≤ um.2.2.2
          omega
        refine ⟨_, rfl, rfl, ?_⟩
        intro hinj
        have hinj2 : Inj (fs2.erase a.path) :=
          inj_of_srcStable (srcStable_trans hpre (srcStable_erase fs2 a.path)) hinj
        have hspec := uploadMany_ok_spec allImages (fs2.erase a.path)
          (st.store.update aref ba) (st.uuid + 1) urls hinj2 hcol
        constructor
        · intro r hr
          have hr' : r ∈ urls := by
            have : some r ∈ jsSwap urls (O.corr i) := by
              simpa [choiceRefs] using hr
            exact jsSwap_mem urls (O.corr i) r this
          obtain ⟨n, e, rfl, hn1, hn2⟩ := hspec.1 r hr'
          refine ⟨n, e, rfl, by omega, ?_⟩
          show n < um.2.2.2
          omega
        · intro r hr
          have hr' : r ∈ urls := by
            have : some r ∈ jsSwap urls (O.corr i) := by
              simpa [choiceRefs] using hr
            exact jsSwap_mem urls (O.corr i) r this
          obtain ⟨b, hb, hnot, hsrc⟩ := hspec.2.1 r hr'
          refine ⟨b, hb, hnot, ?_⟩
          exact hasSrc_mono hpre (hasSrc_mono (srcStable_erase fs2 a.path) hsrc)

theorem inv_step (st st' : St) (hinv : Inv st)
    (hev : Evolves st st') (hinj' : Inj st'.fs)
    (hdb : st'.db = st.db ∨ ∃ fc, st'.db = st.db ++ [fc] ∧ NewRec st st' fc) :
    Inv st' := by
  obtain ⟨hinj, hrec, hpw⟩ := hinv
  have hrec' : ∀ f ∈ st.db, RecGoodSt st' f := by
    intro f hf r hr
    obtain ⟨⟨n, e, rfl, hn⟩, b, hb, hnot⟩ := hrec f hf r hr
    refine ⟨⟨n, e, rfl, lt_of_lt_of_le hn hev.2.1⟩, b, ?_, ?_⟩
    · rw [hev.2.2 n e hn]
      exact hb
    · exact fun hcon => hnot (hasSrc_mono hev.1 hcon)
  have hpw' : List.Pairwise (NoSharedSource st'.store) st.db := by
    refine List.Pairwise.imp_of_mem ?_ hpw
    intro f g hfm hgm hfg r1 r2 b1 b2 hr1 hr2 h1 h2
    obtain ⟨⟨n1, e1, rfl, hn1⟩, bb1, hb1, -⟩ := hrec f hfm r1 hr1
    obtain ⟨⟨n2, e2, rfl, hn2⟩, bb2, hb2, -⟩ := hrec g hgm r2 hr2
    rw [hev.2.2 n1 e1 hn1] at h1
    rw [hev.2.2 n2 e2 hn2] at h2
    exact hfg _ _ b1 b2 hr1 hr2 h1 h2
  rcases hdb with hsame | ⟨fc, happ, hnew⟩
  · refine ⟨hinj', ?_, ?_⟩
    · rw [hsame]
      exact hrec'
    · rw [hsame]
      exact hpw'
  · refine ⟨hinj', ?_, ?_⟩
    · rw [happ]
      intro f hf
      rcases List.mem_append.mp hf with hf | hf
      · exact hrec' f hf
      · rw [List.mem_singleton] at hf
        subst hf
        intro r hr
        obtain ⟨b, hb, hnot, -⟩ := hnew.2 r hr
        obtain ⟨n, e, rfl, hn1, hn2⟩ := hnew.1 r hr
        exact ⟨⟨n, e, rfl, hn2⟩, b, hb, hnot⟩
    · rw [happ, List.pairwise_append]
      refine ⟨hpw', List.pairwise_singleton _ _, ?_⟩
      intro g hg fc' hfc'
      rw [List.mem_singleton] at hfc'
      subst hfc'
      intro r1 r2 b1 b2 hr1 hr2 h1 h2
      obtain ⟨⟨n1, e1, rfl, hn1⟩, bb1, hb1, hnot1⟩ := hrec g hg r1 hr1
      rw [hev.2.2 n1 e1 hn1, hb1] at h1
      cases h1
      obtain ⟨b2', hb2', -, hsrc2⟩ := hnew.2 r2 hr2
      rw [hb2'] at h2
      cases h2
      intro hcon
      rw [hcon] at hnot1
      exact hnot1 hsrc2

theorem runPairs_inv (O : Oracle) (lid : Nat) (imgs : List UFile) :
    ∀ (pairs : List (UFile × Option UFile)) (i : Nat) (st : St),
      Inv st → Inv (runPairs O lid imgs i st pairs).2
  | [], _, _, hinv => hinv
  | (a, mi) :: rest, i, st, hinv => by
    have hspec := processPair_spec O lid imgs i st a mi
    have hstep : Inv (processPair O lid imgs i st a mi).2 := by
      refine inv_step st _ hinv hspec.1 (hspec.2.1 hinv.1) ?_
      rcases hspec.2.2 with hsame | ⟨fc, happ, -, hnew⟩
      · exact Or.inl hsame
      · exact Or.inr ⟨fc, happ, hnew hinv.1⟩
    simpa [runPairs] using
      runPairs_inv O lid imgs rest (i + 1) (processPair O lid imgs i st a mi).2 hstep

/-- Claim C1 (amended): records created by one sequentially processed
bulk-upload batch are pairwise source-disjoint: the answer choices of
two different records created by the batch never resolve, in the final
store, to blobs deriving from the same uploaded source image.  (The
mechanism is not pool exclusion — see the counterexample — but the
deletion of the local file at first upload, which makes a later pair
that picked the same image fail before inserting its record.) -/
theorem C1_amended_no_shared_source (O : Oracle) (lessonId : Nat)
    (files : List UFile) (st : St) (resp : Resp) (st' : St)
    (hinj : Inj st.fs) (hdb : st.db = [])
    (h : bulkUpload O lessonId files st = (resp, st')) :
    List.Pairwise (NoSharedSource st'.store) st'.db := by
  have hinv0 : Inv { st with
      fs := (handleFileUpload O files st.fs st.clock).1,
      clock := (handleFileUpload O files st.fs st.clock).2 } := by
    refine ⟨inj_of_srcStable (processList_srcStable O files st.fs st.clock) hinj, ?_, ?_⟩
    · intro f hf
      rw [show ({ st with
          fs := (handleFileUpload O files st.fs st.clock).1,
          clock := (handleFileUpload O files st.fs st.clock).2 } : St).db = st.db
          from rfl, hdb] at hf
      cases hf
    · rw [show ({ st with
          fs := (handleFileUpload O files st.fs st.clock).1,
          clock := (handleFileUpload O files st.fs st.clock).2 } : St).db = st.db
          from rfl, hdb]
      exact List.Pairwise.nil
  unfold bulkUpload at h
  by_cases hf : files.length = 0
  · rw [if_pos hf] at h
    obtain ⟨-, rfl⟩ : resp = _ ∧ st' = _ := ⟨congrArg Prod.fst h |>.symm, congrArg Prod.snd h |>.symm⟩
    simp only []
    rw [show ({ st with
        fs := (handleFileUpload O files st.fs st.clock).1,
        clock := (handleFileUpload O files st.fs st.clock).2 } : St).db = st.db
        from rfl, hdb]
    exact List.Pairwise.nil
  · rw [if_neg hf] at h
    by_cases hg : (files.filter (fun f => strStartsWith f.mimetype "audio/")).length = 0 ∨
        (files.filter (fun f => strStartsWith f.mimetype "image/")).length = 0
    · rw [if_pos hg] at h
      obtain rfl : st' = _ := (congrArg Prod.snd h).symm
      rw [show ({ st with
          fs := (handleFileUpload O files st.fs st.clock).1,
          clock := (handleFileUpload O files st.fs st.clock).2 } : St).db = st.db
          from rfl, hdb]
      exact List.Pairwise.nil
    · rw [if_neg hg] at h
      obtain rfl : st' = _ := (congrArg Prod.snd h).symm
      have := runPairs_inv O lessonId
        (files.filter (fun f => strStartsWith f.mimetype "image/"))
        (matchedPairsOf (files.filter (fun f => strStartsWith f.mimetype "audio/"))
          (files.filter (fun f => strStartsWith f.mimetype "image/"))) 0 _ hinv0
      exact this.2.2

theorem fsCat_cases (p : String) (b : Blob) (h : fsCat p = some b) :
    p = "/tmp/uploads/cat.mp3" ∧ b = audBlob 0 ∨
    p = "/tmp/uploads/dog.mp3" ∧ b = audBlob 1 ∨
    p = "/tmp/uploads/cat.png" ∧ b = imgBlob 2 ∨
    p = "/tmp/uploads/dog.png" ∧ b = imgBlob 3 ∨
    p = "/tmp/uploads/bird.png" ∧ b = imgBlob 4 ∨
    p = "/tmp/uploads/fish.png" ∧ b = imgBlob 5 ∨
    p = "/tmp/uploads/tree.png" ∧ b = imgBlob 6 := by
  unfold fsCat at h
  split_ifs at h with h1 h2 h3 h4 h5 h6 h7
  · cases h
    exact Or.inl ⟨h1, rfl⟩
  · cases h
    exact Or.inr (Or.inl ⟨h2, rfl⟩)
  · cases h
    exact Or.inr (Or.inr (Or.inl ⟨h3, rfl⟩))
  · cases h
    exact Or.inr (Or.inr (Or.inr (Or.inl ⟨h4, rfl⟩)))
  · cases h
    exact Or.inr (Or.inr (Or.inr (Or.inr (Or.inl ⟨h5, rfl⟩))))
  · cases h
    exact Or.inr (Or.inr (Or.inr (Or.inr (Or.inr (Or.inl ⟨h6, rfl⟩)))))
  · cases h
    exact Or.inr (Or.inr (Or.inr (Or.inr (Or.inr (Or.inr ⟨h7, rfl⟩)))))

theorem injFsCat : Inj fsCat := by
  intro p q b c hp hq he
  rcases fsCat_cases p b hp with ⟨rfl, rfl⟩ | ⟨rfl, rfl⟩ | ⟨rfl, rfl⟩ |
    ⟨rfl, rfl⟩ | ⟨rfl, rfl⟩ | ⟨rfl, rfl⟩ | ⟨rfl, rfl⟩ <;>
  rcases fsCat_cases q c hq with ⟨rfl, rfl⟩ | ⟨rfl, rfl⟩ | ⟨rfl, rfl⟩ |
    ⟨rfl, rfl⟩ | ⟨rfl, rfl⟩ | ⟨rfl, rfl⟩ | ⟨rfl, rfl⟩ <;>
  first
    | rfl
    | (exfalso; revert he; decide)

theorem C1_amended_witness :
    Inj fsCat ∧
    List.Pairwise
      (NoSharedSource (bulkUpload oracle0 7 filesCat (st0 fsCat)).2.store)
      (bulkUpload oracle0 7 filesCat (st0 fsCat)).2.db :=
  ⟨injFsCat,
   C1_amended_no_shared_source oracle0 7 filesCat (st0 fsCat) _ _ injFsCat rfl rfl⟩

theorem runPairs_evolves (O : Oracle) (lid : Nat) (imgs : List UFile) :
    ∀ (pairs : List (UFile × Option UFile)) (i : Nat) (st : St),
      Evolves st (runPairs O lid imgs i st pairs).2
  | [], _, st => evolves_refl st
  | (a, mi) :: rest, i, st => by
    have h1 := (processPair_spec O lid imgs i st a mi).1
    have h2 := runPairs_evolves O lid imgs rest (i + 1)
      (processPair O lid imgs i st a mi).2
    simpa [runPairs] using evolves_trans h1 h2

theorem runPairs_get_split (O : Oracle) (lid : Nat) (imgs : List UFile) :
    ∀ (pairs : List (UFile × Option UFile)) (i : Nat) (st : St) (k : Nat)
      (a : UFile) (mi : Option UFile),
      pairs[k]? = some (a, mi) →
      ∃ stk, Evolves st stk ∧
        (runPairs O lid imgs i st pairs).1[k]? =
          some (processPair O lid imgs (i + k) stk a mi).1 ∧
        Evolves (processPair O lid imgs (i + k) stk a mi).2
          (runPairs O lid imgs i st pairs).2
  | [], _, _, k, a, mi, h => by simp at h
  | (b, mb) :: rest, i, st, 0, a, mi, h => by
    simp only [List.getElem?_cons_zero, Option.some.injEq, Prod.mk.injEq] at h
    obtain ⟨rfl, rfl⟩ := h
    refine ⟨st, evolves_refl st, ?_, ?_⟩
    · simp [runPairs]
    · have := runPairs_evolves O lid imgs rest (i + 1)
        (processPair O lid imgs i st b mb).2
      simpa [runPairs] using this
  | (b, mb) :: rest, i, st, k + 1, a, mi, h => by
    simp only [List.getElem?_cons_succ] at h
    obtain ⟨stk, hev, hget, htail⟩ := runPairs_get_split O lid imgs rest (i + 1)
      (processPair O lid imgs i st b mb).2 k a mi h
    refine ⟨stk, evolves_trans (processPair_spec O lid imgs i st b mb).1 hev, ?_, ?_⟩
    · have : i + 1 + k = i + (k + 1) := by omega
      rw [this] at hget
      simpa [runPairs] using hget
    · have : i + 1 + k = i + (k + 1) := by omega
      rw [this] at htail
      simpa [runPairs] using htail

theorem pickOthers_length_le :
    ∀ (l : List UFile) (used : List String) (acc : List UFile),
      acc.length < 3 → (pickOthers l used acc).length ≤ 3
  | [], _, acc, h => by
    simp [pickOthers]
    omega
  | img :: rest, used, acc, h => by
    simp only [pickOthers]
    split
    · exact pickOthers_length_le rest used acc h
    · split
      next heq => omega
      next heq =>
        refine pickOthers_length_le rest _ _ ?_
        have : (acc ++ [img]).length = acc.length + 1 := by simp
        omega

theorem collectRefs_ok_length :
    ∀ (rs : List (Except UErr Ref)) (refs : List Ref),
      collectRefs rs = .ok refs → refs.length = rs.length
  | [], refs, h => by
    obtain rfl : refs = [] := by simpa using (show ([] : List Ref) = refs by
      simpa [collectRefs] using h.symm).symm
    rfl
  | x :: rs, refs, h => by
    obtain ⟨r, rest, rfl, rfl, hrest⟩ := collectRefs_ok_cons x rs refs h
    simp [collectRefs_ok_length rs rest hrest]

theorem uploadMany_results_length :
    ∀ (files : List UFile) (fs : FS) (store : Store Ref) (u : Nat),
      (uploadMany fs store u files).1.length = files.length
  | [], _, _, _ => rfl
  | f :: rest, fs, store, u => by
    rcases hup : uploadFile fs store f.path (Ref.img u (extnameOf f.originalname))
      with e | ⟨fs1, store1, r1⟩
    · simp [uploadMany, hup, uploadMany_results_length rest fs store (u + 1)]
    · obtain ⟨b, hb, rfl, rfl, rfl⟩ := uploadFile_ok_inv _ _ _ _ _ _ _ hup
      simp [uploadMany, hup, uploadMany_results_length rest]

theorem jsSwap_spec (r0 : Ref) (rest : List Ref) (i : Nat)
    (h : i < (r0 :: rest).length) :
    (jsSwap (r0 :: rest) i).length = (r0 :: rest).length ∧
    (jsSwap (r0 :: rest) i)[i]? = some (some r0) := by
  have hlen : i < ((r0 :: rest).map some).length := by simpa using h
  unfold jsSwap
  rw [if_pos hlen]
  have hd0 : ((r0 :: rest).map some).getD 0 none = some r0 := by simp
  constructor
  · simp
  · rw [hd0]
    rw [List.getElem?_set_self (by simpa using hlen)]

theorem otherImagesFor_le (O : Oracle) (i : Nat) (m : UFile)
    (imgs : List UFile) : (otherImagesFor O i m imgs).length ≤ 3 :=
  pickOthers_length_le _ _ [] (by simp)

theorem processPair_ok_shape (O : Oracle) (lid : Nat) (imgs : List UFile)
    (i : Nat) (st : St) (a : UFile) (mi : Option UFile)
    (name : String) (fc : Flashcard) (hc : O.corr i < 4)
    (h : (processPair O lid imgs i st a mi).1 = .ok name fc) :
    ∃ m, mi = some m ∧
      fc.correctImageIndex = O.corr i ∧
      fc.imageChoices.length = 4 ∧
      ∃ ref bm b0,
        fc.imageChoices[fc.correctImageIndex]? = some (some ref) ∧
        (∃ n e, ref = Ref.img n e ∧
          n < (processPair O lid imgs i st a mi).2.uuid) ∧
        (processPair O lid imgs i st a mi).2.store ref = some bm ∧
        st.fs m.path = some b0 ∧ bm.srcId = b0.srcId := by
  rcases mi with _ | m
  · exact absurd h (by simp [processPair])
  refine ⟨m, rfl, ?_⟩
  have hpm : SrcStable st.fs (processImageRetry O st.fs st.clock m.path).2.1 :=
    processImageRetry_srcStable O st.fs st.clock m.path
  have hpre : SrcStable st.fs (processList O (otherImagesFor O i m imgs)
      (processImageRetry O st.fs st.clock m.path).2.1
      (processImageRetry O st.fs st.clock m.path).2.2).1 :=
    srcStable_trans hpm (processList_srcStable O (otherImagesFor O i m imgs) _ _)
  revert h
  simp only [processPair]
  split
  next hlt => intro h; exact absurd h (by simp)
  next hlt =>
    split
    next e hup => intro h; exact absurd h (by simp)
    next fs3 store3 aurl hup =>
      obtain ⟨ba, hba, rfl, rfl, rfl⟩ := uploadFile_ok_inv _ _ _ _ _ _ _ hup
      set fs2 := (processList O (otherImagesFor O i m imgs)
        (processImageRetry O st.fs st.clock m.path).2.1
        (processImageRetry O st.fs st.clock m.path).2.2).1 with hfs2
      set aref := Ref.audio st.uuid (extnameOf a.originalname) with haref
      split
      next e2 hcol => intro h; exact absurd h (by simp)
      next urls hcol =>
        intro h
        have hfc : fc = { lessonId := lid, audioUrl := aref, imageChoices := jsSwap urls (O.corr i), correctImageIndex := O.corr i } := by
          have h2 := h
          simp only [ItemResult.ok.injEq] at h2
          exact h2.2.symm
        obtain ⟨b, restRefs, hbm, hurls, hrest, hst⟩ :=
          uploadMany_cons_ok m (otherImagesFor O i m imgs) (fs2.erase a.path)
            (st.store.update aref ba) (st.uuid + 1) urls hcol
        have hothers3 : (otherImagesFor O i m imgs).length = 3 := by
          have := otherImagesFor_le O i m imgs
          omega
        have hurls_len : urls.length = 4 := by
          have h1 := collectRefs_ok_length _ _ hcol
          have h2 := uploadMany_results_length
            (m :: otherImagesFor O i m imgs) (fs2.erase a.path)
            (st.store.update aref ba) (st.uuid + 1)
          rw [h2] at h1
          simp [hothers3] at h1
          exact h1
        subst hurls
        have hswap := jsSwap_spec (Ref.img (st.uuid + 1) (extnameOf m.originalname))
          restRefs (O.corr i) (by omega)
        have hm_path : fs2 m.path = some b := by
          by_cases hma : m.path = a.path
          · rw [hma] at hbm
            simp [Map.erase_self] at hbm
          · rwa [Map.erase_ne _ hma] at hbm
        obtain ⟨b0, hb0, hsrc⟩ := hpre m.path b hm_path
        refine ⟨?_, ?_, Ref.img (st.uuid + 1) (extnameOf m.originalname), b, b0,
          ?_, ?_, ?_, hb0, hsrc⟩
        · rw [hfc]
        · rw [hfc]
          rw [hswap.1]
          exact hurls_len
        · rw [hfc]
          exact hswap.2
        · refine ⟨st.uuid + 1, extnameOf m.originalname, rfl, ?_⟩
          show st.uuid + 1 <
            (uploadMany (fs2.erase a.path) (st.store.update aref ba) (st.uuid + 1)
              (m :: otherImagesFor O i m imgs)).2.2.2
          rw [uploadMany_uuid]
          simp
        · show (uploadMany (fs2.erase a.path) (st.store.update aref ba) (st.uuid + 1)
              (m :: otherImagesFor O i m imgs)).2.2.1
              (Ref.img (st.uuid + 1) (extnameOf m.originalname)) = some b
          rw [hst]
          rcases uploadMany_store_pres (otherImagesFor O i m imgs)
              ((fs2.erase a.path).erase m.path)
              ((st.store.update aref ba).update
                (Ref.img (st.uuid + 1) (extnameOf m.originalname)) b)
              (st.uuid + 2)
              (Ref.img (st.uuid + 1) (extnameOf m.originalname)) with hsame | hfresh
          · rw [hsame, Map.update_self]
          · obtain ⟨n, e, hne, hn⟩ := hfresh
            cases hne
            omega

end LLH

namespace LLH

theorem processImage_srcStable (fs : FS) (p : String) (fs' : FS)
    (h : processImage fs p = .ok fs') : SrcStable fs fs' := by
  rcases hfs : fs p with _ | b
  · simp [processImage, hfs] at h
  · by_cases hd : b.isDec
    · by_cases hc : jsCond b.dims
      · have hres : fs' = (((fs.update (p ++ "_resized") (resize500 b true)).erase p).erase
            (p ++ "_resized")).update p (resize500 b true) := by
          have h2 := h
          simp only [processImage, hfs, hd, hc] at h2
          simpa using h2.symm
        subst hres
        intro q b' hq
        by_cases hqp : q = p
        · subst hqp
          rw [Map.update_self] at hq
          cases hq
          exact ⟨b, hfs, by simp [resize500, Blob.srcId]⟩
        · rw [Map.update_ne _ _ hqp] at hq
          by_cases hqr : q = p ++ "_resized"
          · subst hqr
            simp [Map.erase_self] at hq
          · rw [Map.erase_ne _ hqr, Map.erase_ne _ hqp, Map.update_ne _ _ hqr] at hq
            exact ⟨b', hq, rfl⟩
      · have hres : fs' = fs := by
          have h2 := h
          simp only [processImage, hfs, hd, hc] at h2
          simpa using h2.symm
        rw [hres]
        exact srcStable_refl fs
    · simp [processImage, hfs, hd] at h

theorem processAllRoutes_srcStable :
    ∀ (files : List UFile) (fs : FS), SrcStable fs (processAllRoutes files fs).1
  | [], fs => srcStable_refl fs
  | f :: rest, fs => by
    rcases hpi : processImage fs f.path with e | fs1
    · simpa [processAllRoutes, hpi] using processAllRoutes_srcStable rest fs
    · simpa [processAllRoutes, hpi] using
        srcStable_trans (processImage_srcStable fs f.path fs1 hpi)
          (processAllRoutes_srcStable rest fs1)

theorem processPairRoutes_evolves (O : Oracle) (lid : Nat) (imgs : List UFile)
    (i : Nat) (st : St) (a : UFile) (mi : Option UFile) :
    Evolves st (processPairRoutes O lid imgs i st a mi).2 := by
  rcases mi with _ | m
  · exact evolves_refl st
  simp only [processPairRoutes]
  split
  next e hpi => exact evolves_refl st
  next fs1 hpi =>
    have hfs1 : SrcStable st.fs fs1 := processImage_srcStable st.fs m.path fs1 hpi
    have hfs2 : SrcStable st.fs
        (processAllRoutes ((O.shuffle i (imgs.filter (fun img => img != m))).take 3)
          fs1).1 :=
      srcStable_trans hfs1 (processAllRoutes_srcStable _ fs1)
    split
    next e hall => exact ⟨hfs2, le_refl _, fun _ _ _ => rfl⟩
    next hall =>
      split
      next e hup => exact ⟨hfs2, Nat.le_succ _, fun _ _ _ => rfl⟩
      next fs3 store3 aurl hup =>
        obtain ⟨ba, hba, rfl, rfl, rfl⟩ := uploadFile_ok_inv _ _ _ _ _ _ _ hup
        set fs2 := (processAllRoutes
          ((O.shuffle i (imgs.filter (fun img => img != m))).take 3)
          fs1).1 with hfs2d
        set aref := Ref.audio st.uuid (extnameOf a.originalname) with haref
        set allImages := m :: (O.shuffle i (imgs.filter (fun img => img != m))).take 3
          with hall2
        set um := uploadMany (fs2.erase a.path) (st.store.update aref ba)
          (st.uuid + 1) allImages with hum
        have hfs4 : SrcStable st.fs um.2.1 :=
          srcStable_trans hfs2 (srcStable_trans (srcStable_erase fs2 a.path)
            (uploadMany_srcStable allImages (fs2.erase a.path)
              (st.store.update aref ba) (st.uuid + 1)))
        have hu4 : um.2.2.2 = st.uuid + 1 + allImages.length := by
          rw [hum]
          exact uploadMany_uuid allImages _ _ _
        have hpres4 : ∀ n e, n < st.uuid →
            um.2.2.1 (Ref.img n e) = st.store (Ref.img n e) := by
          intro n e hn
          rcases uploadMany_store_pres allImages (fs2.erase a.path)
              (st.store.update aref ba) (st.uuid + 1) (Ref.img n e) with hsame | hfresh
          · rw [hum, hsame, haref]
            exact evolves_store_audio st st.uuid (extnameOf a.originalname) ba n e
          · obtain ⟨n', e', hne, hn'⟩ := hfresh
            cases hne
            omega
        split
        next e2 hcol =>
          refine ⟨hfs4, ?_, hpres4⟩
          show st.uuid ≤ um.2.2.2
          omega
        next urls hcol =>
          refine ⟨hfs4, ?_, hpres4⟩
          show st.uuid ≤ um.2.2.2
          omega

theorem runPairsRoutes_evolves (O : Oracle) (lid : Nat) (imgs : List UFile) :
    ∀ (pairs : List (UFile × Option UFile)) (i : Nat) (st : St),
      Evolves st (runPairsRoutes O lid imgs i st pairs).2
  | [], _, st => evolves_refl st
  | (a, mi) :: rest, i, st => by
    have h1 := processPairRoutes_evolves O lid imgs i st a mi
    have h2 := runPairsRoutes_evolves O lid imgs rest (i + 1)
      (processPairRoutes O lid imgs i st a mi).2
    simpa [runPairsRoutes] using evolves_trans h1 h2

theorem runPairsRoutes_get_split (O : Oracle) (lid : Nat) (imgs : List UFile) :
    ∀ (pairs : List (UFile × Option UFile)) (i : Nat) (st : St) (k : Nat)
      (a : UFile) (mi : Option UFile),
      pairs[k]? = some (a, mi) →
      ∃ stk, Evolves st stk ∧
        (runPairsRoutes O lid imgs i st pairs).1[k]? =
          some (processPairRoutes O lid imgs (i + k) stk a mi).1 ∧
        Evolves (processPairRoutes O lid imgs (i + k) stk a mi).2
          (runPairsRoutes O lid imgs i st pairs).2
  | [], _, _, k, a, mi, h => by simp at h
  | (b, mb) :: rest, i, st, 0, a, mi, h => by
    simp only [List.getElem?_cons_zero, Option.some.injEq, Prod.mk.injEq] at h
    obtain ⟨rfl, rfl⟩ := h
    refine ⟨st, evolves_refl st, ?_, ?_⟩
    · simp [runPairsRoutes]
    · have := runPairsRoutes_evolves O lid imgs rest (i + 1)
        (processPairRoutes O lid imgs i st b mb).2
      simpa [runPairsRoutes] using this
  | (b, mb) :: rest, i, st, k + 1, a, mi, h => by
    simp only [List.getElem?_cons_succ] at h
    obtain ⟨stk, hev, hget, htail⟩ := runPairsRoutes_get_split O lid imgs rest (i + 1)
      (processPairRoutes O lid imgs i st b mb).2 k a mi h
    refine ⟨stk, evolves_trans (processPairRoutes_evolves O lid imgs i st b mb) hev,
      ?_, ?_⟩
    · have : i + 1 + k = i + (k + 1) := by omega
      rw [this] at hget
      simpa [runPairsRoutes] using hget
    · have : i + 1 + k = i + (k + 1) := by omega
      rw [this] at htail
      simpa [runPairsRoutes] using htail

end LLH

namespace LLH

theorem jsSwap_get_any (r0 : Ref) (rest : List Ref) (i : Nat) :
    i < (jsSwap (r0 :: rest) i).length ∧
    (jsSwap (r0 :: rest) i)[i]? = some (some r0) := by
  by_cases h : i < (r0 :: rest).length
  · have hs := jsSwap_spec r0 rest i h
    refine ⟨?_, hs.2⟩
    rw [hs.1]
    exact h
  · have hlen : ¬ i < (((r0 :: rest)).map some).length := by simpa using h
    unfold jsSwap
    rw [if_neg hlen]
    have hd0 : (((r0 :: rest)).map some).getD 0 none = some r0 := by simp
    rw [hd0]
    have hA : ((((r0 :: rest)).map some).set 0
        ((((r0 :: rest)).map some).getD i none) ++
        List.replicate (i - (((r0 :: rest)).map some).length) none).length = i := by
      simp only [List.length_append, List.length_set, List.length_map,
        List.length_replicate, List.length_cons]
      simp at h
      omega
    constructor
    · simp only [List.length_append, hA, List.length_singleton]
      omega
    · rw [List.getElem?_append_right (le_of_eq hA)]
      rw [hA]
      simp

end LLH

namespace LLH

theorem processPairRoutes_ok_shape (O : Oracle) (lid : Nat) (imgs : List UFile)
    (i : Nat) (st : St) (a : UFile) (mi : Option UFile)
    (name : String) (fc : Flashcard)
    (h : (processPairRoutes O lid imgs i st a mi).1 = .ok name fc) :
    ∃ m, mi = some m ∧
      fc.correctImageIndex = O.corr i ∧
      fc.correctImageIndex < fc.imageChoices.length ∧
      ∃ ref bm b0,
        fc.imageChoices[fc.correctImageIndex]? = some (some ref) ∧
        (∃ n e, ref = Ref.img n e ∧
          n < (processPairRoutes O lid imgs i st a mi).2.uuid) ∧
        (processPairRoutes O lid imgs i st a mi).2.store ref = some bm ∧
        st.fs m.path = some b0 ∧ bm.srcId = b0.srcId := by
  rcases mi with _ | m
  · exact absurd h (by simp [processPairRoutes])
  refine ⟨m, rfl, ?_⟩
  revert h
  simp only [processPairRoutes]
  split
  next e hpi => intro h; exact absurd h (by simp)
  next fs1 hpi =>
    have hfs1 : SrcStable st.fs fs1 := processImage_srcStable st.fs m.path fs1 hpi
    have hpre : SrcStable st.fs
        (processAllRoutes ((O.shuffle i (imgs.filter (fun img => img != m))).take 3)
          fs1).1 :=
      srcStable_trans hfs1 (processAllRoutes_srcStable _ fs1)
    split
    next e hall => intro h; exact absurd h (by simp)
    next hall =>
      split
      next e hup => intro h; exact absurd h (by simp)
      next fs3 store3 aurl hup =>
        obtain ⟨ba, hba, rfl, rfl, rfl⟩ := uploadFile_ok_inv _ _ _ _ _ _ _ hup
        set fs2 := (processAllRoutes
          ((O.shuffle i (imgs.filter (fun img => img != m))).take 3)
          fs1).1 with hfs2d
        set aref := Ref.audio st.uuid (extnameOf a.originalname) with haref
        split
        next e2 hcol => intro h; exact absurd h (by simp)
        next urls hcol =>
          intro h
          have hfc : fc = { lessonId := lid, audioUrl := aref, imageChoices := jsSwap urls (O.corr i), correctImageIndex := O.corr i } := by
            have h2 := h
            simp only [ItemResult.ok.injEq] at h2
            exact h2.2.symm
          obtain ⟨b, restRefs, hbm, hurls, hrest, hst⟩ :=
            uploadMany_cons_ok m
              ((O.shuffle i (imgs.filter (fun img => img != m))).take 3)
              (fs2.erase a.path) (st.store.update aref ba) (st.uuid + 1) urls hcol
          subst hurls
          have hswap := jsSwap_get_any (Ref.img (st.uuid + 1) (extnameOf m.originalname))
            restRefs (O.corr i)
          have hm_path : fs2 m.path = some b := by
            by_cases hma : m.path = a.path
            · rw [hma] at hbm
              simp [Map.erase_self] at hbm
            · rwa [Map.erase_ne _ hma] at hbm
          obtain ⟨b0, hb0, hsrc⟩ := hpre m.path b hm_path
          refine ⟨?_, ?_, Ref.img (st.uuid + 1) (extnameOf m.originalname), b, b0,
            ?_, ?_, ?_, hb0, hsrc⟩
          · rw [hfc]
          · rw [hfc]
            exact hswap.1
          · rw [hfc]
            exact hswap.2
          · refine ⟨st.uuid + 1, extnameOf m.originalname, rfl, ?_⟩
            show st.uuid + 1 <
              (uploadMany (fs2.erase a.path) (st.store.update aref ba) (st.uuid + 1)
                (m :: (O.shuffle i (imgs.filter (fun img => img != m))).take 3)).2.2.2
            rw [uploadMany_uuid]
            simp
          · show (uploadMany (fs2.erase a.path) (st.store.update aref ba) (st.uuid + 1)
                (m :: (O.shuffle i (imgs.filter (fun img => img != m))).take 3)).2.2.1
                (Ref.img (st.uuid + 1) (extnameOf m.originalname)) = some b
            rw [hst]
            rcases uploadMany_store_pres
                ((O.shuffle i (imgs.filter (fun img => img != m))).take 3)
                ((fs2.erase a.path).erase m.path)
                ((st.store.update aref ba).update
                  (Ref.img (st.uuid + 1) (extnameOf m.originalname)) b)
                (st.uuid + 2)
                (Ref.img (st.uuid + 1) (extnameOf m.originalname)) with hsame | hfresh
            · rw [hsame, Map.update_self]
            · obtain ⟨n, e, hne, hn⟩ := hfresh
              cases hne
              omega

end LLH

namespace LLH

/-- Claim C4 (amended): for every flashcard record successfully created
by either bulk-upload handler, `correctImageIndex` is a valid index into
`imageChoices`, and the choice at that index is exactly the reference
derived from the image whose base name matched the paired audio file —
it resolves in the final store to the bytes the matched image's local
file held when the batch started.  In the part_014 handler the choice
list moreover always has exactly 4 entries (its under-3-distractors
guard, with `Math.floor(Math.random() * 4) < 4`); the unguarded
routes.ts handler can produce a shorter list, possibly with undefined
holes, on a batch with fewer than 4 images, but the matched reference
still sits at the stored index, which is still in range.  (The part_014
bulk-import handler does not satisfy the claim — see the
counterexample.) -/
theorem C4_amended_correct_index :
    (∀ (O : Oracle) (lessonId : Nat) (files : List UFile) (st : St)
       (report : Report) (st' : St),
      (∀ i, O.corr i < 4) →
      bulkUpload O lessonId files st = (.ok report, st') →
      ∀ (k : Nat) (name : String) (fc : Flashcard),
        report.results[k]? = some (.ok name fc) →
        fc.correctImageIndex < fc.imageChoices.length ∧
        fc.imageChoices.length = 4 ∧
        ∃ a m,
          (files.filter (fun f => strStartsWith f.mimetype "audio/"))[k]? = some a ∧
          (files.filter (fun f => strStartsWith f.mimetype "image/")).find?
            (fun im => baseNameOf im.originalname == baseNameOf a.originalname)
            = some m ∧
          baseNameOf m.originalname = baseNameOf a.originalname ∧
          ∃ ref bm b0,
            fc.imageChoices[fc.correctImageIndex]? = some (some ref) ∧
            st'.store ref = some bm ∧
            st.fs m.path = some b0 ∧ bm.srcId = b0.srcId) ∧
    (∀ (O : Oracle) (lessonId : Nat) (files : List UFile) (st : St)
       (report : Report) (st' : St),
      bulkUploadRoutes O lessonId files st = (.ok report, st') →
      ∀ (k : Nat) (name : String) (fc : Flashcard),
        report.results[k]? = some (.ok name fc) →
        fc.correctImageIndex < fc.imageChoices.length ∧
        ∃ a m,
          (files.filter (fun f => strStartsWith f.mimetype "audio/"))[k]? = some a ∧
          (files.filter (fun f => strStartsWith f.mimetype "image/")).find?
            (fun im => baseNameOf im.originalname == baseNameOf a.originalname)
            = some m ∧
          baseNameOf m.originalname = baseNameOf a.originalname ∧
          ∃ ref bm b0,
            fc.imageChoices[fc.correctImageIndex]? = some (some ref) ∧
            st'.store ref = some bm ∧
            st.fs m.path = some b0 ∧ bm.srcId = b0.srcId) := by
  constructor
  · intro O lessonId files st report st' hc h k name fc hk
    obtain ⟨rfl, rfl⟩ := bulkUpload_ok_inv O lessonId files st report st' h
    set audioFiles := files.filter (fun f => strStartsWith f.mimetype "audio/")
      with haud
    set imageFiles := files.filter (fun f => strStartsWith f.mimetype "image/")
      with himg
    set sth : St := { st with
      fs := (handleFileUpload O files st.fs st.clock).1,
      clock := (handleFileUpload O files st.fs st.clock).2 } with hsth
    set pairs := matchedPairsOf audioFiles imageFiles with hpairs
    have hklt : k < (runPairs O lessonId imageFiles 0 sth pairs).1.length := by
      by_contra hge
      rw [List.getElem?_eq_none (le_of_not_lt hge)] at hk
      cases hk
    rw [runPairs_length] at hklt
    have hka : k < audioFiles.length := by
      rw [hpairs] at hklt
      simpa [matchedPairsOf] using hklt
    obtain ⟨a, ha⟩ : ∃ a, audioFiles[k]? = some a :=
      ⟨audioFiles[k], List.getElem?_eq_getElem hka⟩
    have hpk : pairs[k]? = some (a, imageFiles.find?
        (fun im => baseNameOf im.originalname == baseNameOf a.originalname)) := by
      rw [hpairs]
      exact matchedPairsOf_get audioFiles imageFiles k a ha
    obtain ⟨stk, hev0, hget, htail⟩ :=
      runPairs_get_split O lessonId imageFiles pairs 0 sth k a _ hpk
    rw [hget] at hk
    have hok : (processPair O lessonId imageFiles (0 + k) stk a
        (imageFiles.find?
          (fun im => baseNameOf im.originalname == baseNameOf a.originalname))).1 =
        .ok name fc := by
      simpa using hk
    obtain ⟨m, hmi, hidx, hlen4, ref, bm, b0', hchoice, ⟨n, e, rfl, hn⟩, hstore,
      hfsk, hsrc⟩ := processPair_ok_shape O lessonId imageFiles (0 + k) stk a _
      name fc (hc (0 + k)) hok
    have hfind := hmi
    refine ⟨by rw [hidx, hlen4]; exact hc (0 + k), hlen4, a, m, ha, hfind, ?_, ?_⟩
    · have := List.find?_some hfind
      exact eq_of_beq this
    · have hb0' : ∃ b0, st.fs m.path = some b0 ∧ b0'.srcId = b0.srcId := by
        obtain ⟨b1, hb1, he1⟩ := hev0.1 m.path b0' hfsk
        obtain ⟨b2, hb2, he2⟩ :=
          processList_srcStable O files st.fs st.clock m.path b1 hb1
        exact ⟨b2, hb2, he1.trans he2⟩
      obtain ⟨b0, hb0, he0⟩ := hb0'
      refine ⟨Ref.img n e, bm, b0, hchoice, ?_, hb0, by rw [hsrc, he0]⟩
      rw [htail.2.2 n e hn]
      exact hstore
  · intro O lessonId files st report st' h k name fc hk
    obtain ⟨rfl, rfl⟩ := bulkUploadRoutes_ok_inv O lessonId files st report st' h
    set audioFiles := files.filter (fun f => strStartsWith f.mimetype "audio/")
      with haud
    set imageFiles := files.filter (fun f => strStartsWith f.mimetype "image/")
      with himg
    set pairs := matchedPairsOf audioFiles imageFiles with hpairs
    have hklt : k < (runPairsRoutes O lessonId imageFiles 0 st pairs).1.length := by
      by_contra hge
      rw [List.getElem?_eq_none (le_of_not_lt hge)] at hk
      cases hk
    rw [runPairsRoutes_length] at hklt
    have hka : k < audioFiles.length := by
      rw [hpairs] at hklt
      simpa [matchedPairsOf] using hklt
    obtain ⟨a, ha⟩ : ∃ a, audioFiles[k]? = some a :=
      ⟨audioFiles[k], List.getElem?_eq_getElem hka⟩
    have hpk : pairs[k]? = some (a, imageFiles.find?
        (fun im => baseNameOf im.originalname == baseNameOf a.originalname)) := by
      rw [hpairs]
      exact matchedPairsOf_get audioFiles imageFiles k a ha
    obtain ⟨stk, hev0, hget, htail⟩ :=
      runPairsRoutes_get_split O lessonId imageFiles pairs 0 st k a _ hpk
    rw [hget] at hk
    have hok : (processPairRoutes O lessonId imageFiles (0 + k) stk a
        (imageFiles.find?
          (fun im => baseNameOf im.originalname == baseNameOf a.originalname))).1 =
        .ok name fc := by
      simpa using hk
    obtain ⟨m, hmi, hidx, hlt, ref, bm, b0', hchoice, ⟨n, e, rfl, hn⟩, hstore,
      hfsk, hsrc⟩ := processPairRoutes_ok_shape O lessonId imageFiles (0 + k) stk a _
      name fc hok
    have hfind := hmi
    refine ⟨hlt, a, m, ha, hfind, ?_, ?_⟩
    · have := List.find?_some hfind
      exact eq_of_beq this
    · obtain ⟨b0, hb0, he0⟩ := hev0.1 m.path b0' hfsk
      refine ⟨Ref.img n e, bm, b0, hchoice, ?_, hb0, by rw [hsrc, he0]⟩
      rw [htail.2.2 n e hn]
      exact hstore

theorem bulkUploadRoutesAB_eq :
    bulkUploadRoutes oracle2 7 filesAB (st0 fsAB) =
      (.ok reportAB, (bulkUploadRoutes oracle2 7 filesAB (st0 fsAB)).2) :=
  Prod.ext (by decide) rfl

theorem C4_amended_witness :
    (catCard.correctImageIndex < catCard.imageChoices.length ∧
     catCard.imageChoices.length = 4 ∧
     ∃ a m,
       (filesCat.filter (fun f => strStartsWith f.mimetype "audio/"))[0]? = some a ∧
       (filesCat.filter (fun f => strStartsWith f.mimetype "image/")).find?
         (fun im => baseNameOf im.originalname == baseNameOf a.originalname)
         = some m ∧
       baseNameOf m.originalname = baseNameOf a.originalname ∧
       ∃ ref bm b0,
         catCard.imageChoices[catCard.correctImageIndex]? = some (some ref) ∧
         (bulkUpload oracle0 7 filesCat (st0 fsCat)).2.store ref = some bm ∧
         (st0 fsCat).fs m.path = some b0 ∧ bm.srcId = b0.srcId) ∧
    (abCard.correctImageIndex < abCard.imageChoices.length ∧
     ∃ a m,
       (filesAB.filter (fun f => strStartsWith f.mimetype "audio/"))[0]? = some a ∧
       (filesAB.filter (fun f => strStartsWith f.mimetype "image/")).find?
         (fun im => baseNameOf im.originalname == baseNameOf a.originalname)
         = some m ∧
       baseNameOf m.originalname = baseNameOf a.originalname ∧
       ∃ ref bm b0,
         abCard.imageChoices[abCard.correctImageIndex]? = some (some ref) ∧
         (bulkUploadRoutes oracle2 7 filesAB (st0 fsAB)).2.store ref = some bm ∧
         (st0 fsAB).fs m.path = some b0 ∧ bm.srcId = b0.srcId) :=
  ⟨C4_amended_correct_index.1 oracle0 7 filesCat (st0 fsCat) reportCat _
     (fun i => by simp [oracle0]) bulkUploadCat_eq 0 "cat.mp3" catCard (by decide),
   C4_amended_correct_index.2 oracle2 7 filesAB (st0 fsAB) reportAB _
     bulkUploadRoutesAB_eq 0 "a.mp3" abCard (by decide)⟩

end LLH
